import Mathlib

/-!
Shallow embedding of the extraction-orchestration pipeline of
`src/langgraph_advanced_extractor.py` (classes `ProductListAgent`,
`FolderManagerAgent`, `ProductExtractionAgent`, `ValidationAgent`,
`WorkflowCoordinator`, and the LangGraph wiring of
`create_advanced_workflow` / `main`).

Embedding conventions:
* Python dict/JSON values are modelled by `JValue`; a payload dict is an
  association list with distinct keys (Python dicts have unique keys).
* Python floats are modelled by exact rationals (`ℚ`).  The only float
  arithmetic in scope (sums of 1.0/0.5, one division, `* 100`) is exact
  enough that the rational model matches the claims under scrutiny.
* Wall-clock data (the `timestamp` / `last_attempt` / `start_time` /
  `end_time` strings stamped from `datetime.now()`, and the timestamp
  part of output file names) and logging are elided: they are write-only
  in the orchestration logic.
* The external collaborators (`FixedSearchExtractor.run_complete_workflow`
  with its timing, the product-list JSON file, `extract_with_selenium`,
  GCS connectivity) are an `Env` oracle.  An exception raised inside the
  per-product `try` block is modelled as the oracle reporting one.
* Batch workers are joined before the next batch starts and each worker
  only writes its own result, so the thread pool is modelled by folding
  the batch in submission order; none of the properties proved below
  depends on the completion order within a batch.  The `except` branch
  around `future.result()` is dead in the model because
  `extract_single_product` catches every exception and returns a result.
* `ProductData` objects are mutated in place by the coordinator
  (`product.retry_count += 1`); since every product is extracted at most
  once per phase and the `products` list entries are not re-read after
  their batch, enqueueing an updated copy on the retry queue is
  observationally equivalent and is what the model does.
* The fields `artifacts`, `attempts`, `batch_log`, `retry_enqueued` and
  `retry_passes` of `WorkflowState` are instrumentation: a ghost log of
  the externally visible events of the run (ArtifactStore writes, calls
  into the extraction collaborator, batch sizes, retry bookkeeping).
  No source data structure is replaced by them.
-/

namespace AdvancedExtractor

/-- A Python/JSON value, as far as the orchestration code inspects one. -/
inductive JValue where
  | null
  | str (s : String)
  | num (q : ℚ)
  | boolean (b : Bool)
  | dict (entries : List (String × JValue))
  | arr (elems : List JValue)

/-- Python truthiness for the values above (`if v:`). -/
def JValue.truthy : JValue → Bool
  | .null => false
  | .str s => !s.isEmpty
  | .num q => q != 0
  | .boolean b => b
  | .dict d => !d.isEmpty
  | .arr l => !l.isEmpty

/-- A Python dict with string keys (keys assumed distinct). -/
abbrev Payload := List (String × JValue)

/-- `k in d` lookup returning `Option.none` when the key is absent. -/
def pfind (p : Payload) (k : String) : Option JValue :=
  (p.find? (fun kv => kv.1 == k)).map (fun kv => kv.2)

/-- `d.get(k)`: the stored value, or Python `None` when absent. -/
def pget (p : Payload) (k : String) : JValue :=
  (pfind p k).getD .null

/-- ASCII reading of Python `str.isalnum` (non-ASCII names out of scope). -/
def pyIsAlnum (c : Char) : Bool := c.isAlpha || c.isDigit

/-- The whitespace characters stripped by Python `str.rstrip()`. -/
def pyIsSpaceChar (c : Char) : Bool :=
  c == ' ' || c == '\t' || c == '\n' || c == '\r' || c == '\x0b' || c == '\x0c'

/-- Python `s.rstrip()`: drop trailing whitespace. -/
def pyRstrip (s : String) : String :=
  ⟨(s.data.reverse.dropWhile pyIsSpaceChar).reverse⟩

/-- The folder-name sanitization used by `FolderManagerAgent.create_product_folders`
and `ProductExtractionAgent.extract_single_product`:
`"".join(c for c in name if c.isalnum() or c in (' ', '-', '_')).rstrip()`. -/
def sanitizeFolderName (name : String) : String :=
  pyRstrip ⟨name.data.filter (fun c => pyIsAlnum c || c == ' ' || c == '-' || c == '_')⟩

/-- The six key fields inspected by
`ProductExtractionAgent._calculate_confidence_score`. -/
def keyFields : List String :=
  ["title", "sku", "brand", "supplier", "description", "key_attributes"]

/-- The points one key field contributes in
`_calculate_confidence_score`: under `if result.get(field):`, the
`key_attributes` field scores 1.0 only for a non-empty dict, any other
field scores 1.0 (its `elif` re-test of truthiness is implied by the
outer guard). -/
def fieldPoints (result : Payload) (f : String) : ℚ :=
  if (pget result f).truthy then
    if f == "key_attributes" then
      match pget result f with
      | .dict d => if 0 < d.length then 1 else 0
      | _ => 0
    else 1
  else 0

/-- `ProductExtractionAgent._calculate_confidence_score`: sum the key-field
points over a total weight of 6, add a 0.5 bonus to score and weight when
an image was downloaded, and return `score / total_fields * 100`
(0 if the total weight were 0). -/
def calculate_confidence_score (result : Payload) : ℚ :=
  let score := (keyFields.map (fieldPoints result)).sum
  let total_fields : ℚ := (keyFields.length : ℚ)
  let hasImage := (pget result "image_downloaded").truthy
  let score := if hasImage then score + 1/2 else score
  let total_fields := if hasImage then total_fields + 1/2 else total_fields
  if 0 < total_fields then score / total_fields * 100 else 0

/-- One issue recordable by `ValidationAgent.validate_extraction_result`
(the rendered message text lives in `ValidationIssue.render`). -/
inductive ValidationIssue where
  | noResultData
  | lowConfidenceScore (score : ℚ)
  | slowExtractionTime (time : ℚ)
  | missingRequiredField (f : String)
deriving DecidableEq

/-- The message text of a validation issue (numeric formatting of the
embedded score/time is Lean's rather than Python's). -/
def ValidationIssue.render : ValidationIssue → String
  | .noResultData => "No result data"
  | .lowConfidenceScore s => "Low confidence score: " ++ toString s
  | .slowExtractionTime t => "Slow extraction time: " ++ toString t ++ "s"
  | .missingRequiredField f => "Missing required field: " ++ f

/-- `ExtractionResult` of the source (sans wall-clock `timestamp`). -/
structure ExtractionResult where
  product_name : String
  success : Bool
  result : Option Payload := none
  error_message : Option String := none
  folder_path : Option String := none
  extraction_time : Option ℚ := none
  retry_count : Nat := 0
  confidence_score : Option ℚ := none
  validation_status : Option String := none

/-- Python truthiness of an optional float (`None` and `0.0` are falsy). -/
def optQTruthy : Option ℚ → Bool
  | none => false
  | some q => q != 0

/-- Python truthiness of an optional dict (`None` and `{}` are falsy). -/
def optPayloadTruthy : Option Payload → Bool
  | none => false
  | some p => !p.isEmpty

/-- The issue list accumulated by `validate_extraction_result` for a
successful result, in source order: `if not result.result`,
`if result.confidence_score and result.confidence_score < 50`,
`if result.extraction_time and result.extraction_time > 60`,
then the required-field check run under `if result.result:`. -/
def validationIssues (r : ExtractionResult) : List ValidationIssue :=
  (if !optPayloadTruthy r.result then [.noResultData] else []) ++
  (match r.confidence_score with
   | some c => if c ≠ 0 ∧ c < 50 then [.lowConfidenceScore c] else []
   | none => []) ++
  (match r.extraction_time with
   | some t => if t ≠ 0 ∧ 60 < t then [.slowExtractionTime t] else []
   | none => []) ++
  (match r.result with
   | some p =>
       if !p.isEmpty ∧ ¬(pget p "title").truthy = true then
         [.missingRequiredField "title"]
       else []
   | none => [])

/-- `ValidationAgent.validate_extraction_result`. -/
def validate_extraction_result (r : ExtractionResult) : ExtractionResult :=
  if !r.success then { r with validation_status := some "failed" }
  else
    let issues := validationIssues r
    if issues.isEmpty then { r with validation_status := some "validated" }
    else
      { r with validation_status := some "issues",
               error_message :=
                 some (String.intercalate "; " (issues.map ValidationIssue.render)) }

/-- `ProductData` of the source.  The optional fields are copied verbatim
from the raw JSON entry by the loader (`setattr`), hence `Option JValue`;
`image_downloaded` / `key_attributes` are never set by the loader and the
write-only `last_attempt` wall-clock stamp is elided. -/
structure ProductData where
  name : String
  url : Option JValue := none
  category : Option JValue := none
  description : Option JValue := none
  price : Option JValue := none
  sku : Option JValue := none
  brand : Option JValue := none
  supplier : Option JValue := none
  image_url : Option JValue := none
  unspsc_code : Option JValue := none
  main_category : Option JValue := none
  sub_category : Option JValue := none
  type : Option JValue := none
  selector : Option JValue := none
  source : Option JValue := none
  index : Option JValue := none
  retry_count : Nat := 0
  max_retries : Nat := 3

/-- Conversion of one raw dict entry to `ProductData`
(`product.get('name', 'Unknown Product')` plus the `optional_fields`
`setattr` loop; a name is assumed to be a string when present). -/
def toProductData (fields : Payload) : ProductData :=
  { name := match pfind fields "name" with
            | some (.str s) => s
            | _ => "Unknown Product"
    url := pfind fields "url"
    category := pfind fields "category"
    description := pfind fields "description"
    price := pfind fields "price"
    sku := pfind fields "sku"
    brand := pfind fields "brand"
    supplier := pfind fields "supplier"
    image_url := pfind fields "image_url"
    unspsc_code := pfind fields "unspsc_code"
    main_category := pfind fields "main_category"
    sub_category := pfind fields "sub_category"
    type := pfind fields "type"
    selector := pfind fields "selector"
    source := pfind fields "source"
    index := pfind fields "index" }

/-- `FolderManagerAgent.create_product_folders`: the container path
ensured for each product (`{data_folder}/{sanitized name}`, a GCS marker
object or a local directory). -/
def create_product_folders (products : List ProductData) (data_folder : String) :
    List String :=
  products.map (fun p => data_folder ++ "/" ++ sanitizeFolderName p.name)

/-- One raw entry: the loaders keep dict entries (converted) and string
entries (name only) and skip anything else. -/
def rawToProduct? : JValue → Option ProductData
  | .dict fields => some (toProductData fields)
  | .str s => some { name := s }
  | _ => none

/-- The conversion loop shared by `load_existing_products` and
`extract_from_iprocure`. -/
def convertRawProducts (raw : List JValue) : List ProductData :=
  raw.filterMap rawToProduct?

/-- Code-point lexicographic comparison of character lists (the order
Python's `<` puts on strings), written structurally. -/
def charListLt : List Char → List Char → Bool
  | [], [] => false
  | [], _ :: _ => true
  | _ :: _, [] => false
  | a :: as, b :: bs =>
      if a < b then true else if b < a then false else charListLt as bs

/-- Python's `str` comparison, used as the sort key order. -/
def pyStrLt (a b : String) : Bool := charListLt a.data b.data

/-- Insert into a name-sorted list, after any element of equal name. -/
def insertByName (p : ProductData) : List ProductData → List ProductData
  | [] => [p]
  | q :: rest =>
      if pyStrLt q.name p.name then q :: insertByName p rest else p :: q :: rest

/-- `products.sort(key=lambda x: x.name)`: Python's sort is a stable
ascending sort; stable insertion sort is extensionally equal to it. -/
def sortByName (l : List ProductData) : List ProductData :=
  l.foldr insertByName []

/-- `ProductListAgent.load_existing_products`, given the parsed entry
list of the JSON file (file I/O and the list/`products`/`data` structure
dispatch are external; a parse failure is modelled as the file being
absent in the `Env`). -/
def load_existing_products (products_data : List JValue) : List ProductData :=
  sortByName (convertRawProducts products_data)

/-- `ProductListAgent.extract_from_iprocure`, given the raw product list
returned by the selenium collaborator (`[]` when it found nothing or
raised). -/
def extract_from_iprocure (raw_products : List JValue) : List ProductData :=
  if raw_products.isEmpty then []
  else sortByName (convertRawProducts raw_products)

/-- Outcome of one `FixedSearchExtractor.run_complete_workflow` call:
either an uncaught exception, or the returned result dict (`none` for a
falsy/absent result), plus the elapsed wall time. -/
structure ExtractOutcome where
  exception : Option String := none
  result : Option Payload := none
  elapsed : ℚ := 0

/-- The external collaborators of the run.  `extract` is keyed by product
name and by the product's `retry_count` at call time (each such pair
occurs at most once per run). -/
structure Env where
  existing_file : Option (List JValue) := none
  iprocure_products : List JValue := []
  extract : String → Nat → ExtractOutcome
  gcs_init_ok : Bool := true

/-- `ProductExtractionAgent.extract_single_product`: run the collaborator,
on a truthy result strip `extraction_success`, persist the per-product
artifacts (details JSON, plus the image when one was downloaded), score
the payload and return a pending result; a falsy result or an exception
yields a failure result.  Returns the result together with the artifact
paths written. -/
def extract_single_product (extract : String → Nat → ExtractOutcome)
    (product : ProductData) (data_folder : String) :
    ExtractionResult × List String :=
  let o := extract product.name product.retry_count
  let failNoDetails : ExtractionResult × List String :=
    ({ product_name := product.name, success := false,
       error_message := some "No details found",
       extraction_time := some o.elapsed, retry_count := product.retry_count }, [])
  match o.exception with
  | some e =>
      ({ product_name := product.name, success := false,
         error_message := some e,
         extraction_time := some o.elapsed, retry_count := product.retry_count }, [])
  | none =>
      match o.result with
      | some p =>
          if !p.isEmpty then
            let folder_path := data_folder ++ "/" ++ sanitizeFolderName product.name
            let clean_data := p.filter (fun kv => kv.1 != "extraction_success")
            let imageArts :=
              if (pget p "image_downloaded").truthy then [folder_path ++ "/image"] else []
            ({ product_name := product.name, success := true,
               result := some clean_data,
               folder_path := some folder_path,
               extraction_time := some o.elapsed,
               retry_count := product.retry_count,
               confidence_score := some (calculate_confidence_score p),
               validation_status := some "pending" },
             [folder_path ++ "/product_details.json"] ++ imageArts)
          else failNoDetails
      | none => failNoDetails

/-- `WorkflowMetrics` of the source (wall-clock start/end elided). -/
structure WorkflowMetrics where
  total_products : Nat := 0
  successful_extractions : Nat := 0
  failed_extractions : Nat := 0
  retried_extractions : Nat := 0
  total_extraction_time : ℚ := 0
  average_extraction_time : ℚ := 0
  success_rate : ℚ := 0

/-- The `ProductState` enum of the source. -/
inductive ProductState where
  | initialized
  | product_list_loaded
  | folders_created
  | extraction_started
  | extraction_in_progress
  | extraction_completed
  | validation_started
  | validation_completed
  | failed
  | retrying
deriving DecidableEq

/-- `WorkflowState` of the source.  `config_max_retries` is the
`config["max_retries"]` entry built in `main` (set there, never read by
any workflow node); `gcs_connected` stands for `gcs_manager` being set.
The trailing five fields are ghost instrumentation (see the header). -/
structure WorkflowState where
  current_state : ProductState
  products : List ProductData
  extraction_results : List ExtractionResult
  current_product_index : Nat
  data_folder : String
  headless_mode : Bool
  delay_between_products : Nat
  max_parallel_extractions : Nat
  metrics : WorkflowMetrics
  error : Option String
  retry_queue : List ProductData
  validation_queue : List ExtractionResult
  config_max_retries : Nat
  gcs_bucket_name : String
  use_gcs : Bool
  gcs_connected : Bool := false
  artifacts : List String := []
  attempts : List (String × Nat) := []
  batch_log : List Nat := []
  retry_enqueued : Nat := 0
  retry_passes : Nat := 0

/-- `WorkflowCoordinator.initialize_workflow`: set up GCS when enabled
(a connection failure sets the error and the `FAILED` state and returns
early), else mark local storage; all other paths end `INITIALIZED`. -/
def initialize_workflow (env : Env) (s : WorkflowState) : WorkflowState :=
  if s.use_gcs && s.gcs_bucket_name != "" then
    if env.gcs_init_ok then
      { s with gcs_connected := true, current_state := .initialized }
    else
      { s with error := some "GCS initialization failed",
               current_state := .failed }
  else
    { s with gcs_connected := false, current_state := .initialized }

/-- The product list obtained by `WorkflowCoordinator.load_product_list`:
an existing product-list file when one loads to a non-empty list,
otherwise the live iProcure extraction. -/
def loadedProducts (env : Env) : List ProductData :=
  let products :=
    match env.existing_file with
    | some products_data => load_existing_products products_data
    | none => []
  if products.isEmpty then extract_from_iprocure env.iprocure_products
  else products

/-- `WorkflowCoordinator.load_product_list`: prefer an existing product
list file; fall back to the live iProcure extraction; finding no products
at all sets the error and the `FAILED` state (note: it does not set
`state["products"]` on that path). -/
def load_product_list (env : Env) (s : WorkflowState) : WorkflowState :=
  let products := loadedProducts env
  if products.isEmpty then
    { s with error := some "No products found from iProcure!",
             current_state := .failed }
  else
    { s with products := products,
             metrics := { s.metrics with total_products := products.length },
             current_state := .product_list_loaded }

/-- `WorkflowCoordinator.create_folders`: ensure one container per product
(the GCS marker object carries a trailing slash) and move to
`FOLDERS_CREATED` — unconditionally, whatever `current_state` was. -/
def create_folders (s : WorkflowState) : WorkflowState :=
  let folder_paths := create_product_folders s.products s.data_folder
  { s with current_state := .folders_created,
           artifacts := s.artifacts ++ folder_paths.map (fun f => f ++ "/") }

/-- `WorkflowCoordinator.start_extraction`. -/
def start_extraction (s : WorkflowState) : WorkflowState :=
  { s with current_state := .extraction_started,
           current_product_index := 0,
           extraction_results := [],
           retry_queue := [],
           validation_queue := [] }

/-- Recording of one completed batch task inside
`WorkflowCoordinator.extract_products_parallel`: append the result, bump
the success/failure counters, enqueue a failed product on the retry queue
when `product.retry_count < product.max_retries` (incrementing its
`retry_count`), and append to the validation queue. -/
def process_batch_product (extract : String → Nat → ExtractOutcome)
    (s : WorkflowState) (product : ProductData) : WorkflowState :=
  let ra := extract_single_product extract product s.data_folder
  let result := ra.1
  let s := { s with
      attempts := s.attempts ++ [(product.name, product.retry_count)],
      artifacts := s.artifacts ++ ra.2,
      extraction_results := s.extraction_results ++ [result] }
  let s :=
    if result.success then
      { s with metrics :=
          { s.metrics with
              successful_extractions := s.metrics.successful_extractions + 1 } }
    else
      let s := { s with metrics :=
          { s.metrics with
              failed_extractions := s.metrics.failed_extractions + 1 } }
      if product.retry_count < product.max_retries then
        { s with
            retry_queue :=
              s.retry_queue ++ [{ product with retry_count := product.retry_count + 1 }],
            retry_enqueued := s.retry_enqueued + 1 }
      else s
  { s with validation_queue := s.validation_queue ++ [result] }

/-- `WorkflowCoordinator.extract_products_parallel`: past the end of the
list, move to `EXTRACTION_COMPLETED`; otherwise process the next slice of
`min(max_parallel_extractions, remaining)` products and advance the
index (the inter-batch sleep is a pure delay and is elided). -/
def extract_products_parallel (env : Env) (s : WorkflowState) : WorkflowState :=
  if s.products.length ≤ s.current_product_index then
    { s with current_state := .extraction_completed }
  else
    let batch_size :=
      min s.max_parallel_extractions (s.products.length - s.current_product_index)
    let batch := (s.products.drop s.current_product_index).take batch_size
    let s' := batch.foldl (process_batch_product env.extract) s
    { s' with
        current_product_index := s.current_product_index + batch_size,
        current_state := .extraction_in_progress,
        batch_log := s'.batch_log ++ [batch_size] }

/-- The three labels returned by
`WorkflowCoordinator.should_continue_extraction`. -/
inductive Route where
  | cont
  | retry
  | validate
deriving DecidableEq

/-- `WorkflowCoordinator.should_continue_extraction`. -/
def should_continue_extraction (s : WorkflowState) : Route :=
  if s.products.length ≤ s.current_product_index then
    if !s.retry_queue.isEmpty then .retry else .validate
  else .cont

/-- The in-place update of `process_retry_queue`: replace the first
result of the same `product_name` (no-op when none matches). -/
def replaceResult (results : List ExtractionResult) (result : ExtractionResult) :
    List ExtractionResult :=
  match results with
  | [] => []
  | r :: rest =>
      if r.product_name == result.product_name then result :: rest
      else r :: replaceResult rest result

/-- One sequential retry inside `process_retry_queue`: re-extract,
replace the previous result, and bump the counters (a successful retry
also bumps `retried_extractions`; a failed retry is not re-enqueued). -/
def process_retry_product (extract : String → Nat → ExtractOutcome)
    (s : WorkflowState) (product : ProductData) : WorkflowState :=
  let ra := extract_single_product extract product s.data_folder
  let result := ra.1
  let s := { s with
      attempts := s.attempts ++ [(product.name, product.retry_count)],
      artifacts := s.artifacts ++ ra.2,
      extraction_results := replaceResult s.extraction_results result }
  if result.success then
    { s with metrics :=
        { s.metrics with
            successful_extractions := s.metrics.successful_extractions + 1,
            retried_extractions := s.metrics.retried_extractions + 1 } }
  else
    { s with metrics :=
        { s.metrics with
            failed_extractions := s.metrics.failed_extractions + 1 } }

/-- `WorkflowCoordinator.process_retry_queue`: a no-op on an empty queue;
otherwise enter `RETRYING`, drain the queue once, sequentially. -/
def process_retry_queue (env : Env) (s : WorkflowState) : WorkflowState :=
  if s.retry_queue.isEmpty then s
  else
    let retry_products := s.retry_queue
    let s := { s with current_state := .retrying,
                      retry_queue := [],
                      retry_passes := s.retry_passes + 1 }
    retry_products.foldl (process_retry_product env.extract) s

/-- `WorkflowCoordinator.start_validation`: validate every result in
place (passing through `VALIDATION_STARTED`, ending
`VALIDATION_COMPLETED`). -/
def start_validation (s : WorkflowState) : WorkflowState :=
  { s with
      extraction_results := s.extraction_results.map validate_extraction_result,
      current_state := .validation_completed }

/-- `WorkflowCoordinator.save_summary`: finalize `success_rate` and
`average_extraction_time`, write the consolidated Excel artifact (skipped
when there are no rows, i.e. no results at all) and the JSON run-summary
artifact. -/
def save_summary (s : WorkflowState) : WorkflowState :=
  let m := s.metrics
  let m :=
    if 0 < m.total_products then
      { m with success_rate :=
          (m.successful_extractions : ℚ) / (m.total_products : ℚ) * 100 }
    else m
  let successful_times :=
    (s.extraction_results.filter
      (fun r => r.success && optQTruthy r.extraction_time)).filterMap
      (fun r => r.extraction_time)
  let m :=
    if !successful_times.isEmpty then
      { m with average_extraction_time :=
          successful_times.sum / (successful_times.length : ℚ) }
    else m
  let excel :=
    if s.extraction_results.isEmpty then []
    else ["product_extraction_results.xlsx"]
  { s with metrics := m,
           artifacts := s.artifacts ++ excel ++ ["langgraph_advanced_summary.json"] }

/-- The `extract_parallel` self-loop of `create_advanced_workflow`,
including its conditional exit edges (`retry` → `process_retries` →
`start_validation`; `validate` → `start_validation`).  The fuel argument
only bounds the iteration count for termination; `run_workflow` passes
enough fuel for every batch (with `max_parallel_extractions = 0` the
Python loop would not advance at all — there `ThreadPoolExecutor`
raises). -/
def run_extraction_loop (env : Env) : Nat → WorkflowState → WorkflowState
  | 0, s => s
  | fuel + 1, s =>
      let s' := extract_products_parallel env s
      match should_continue_extraction s' with
      | .cont => run_extraction_loop env fuel s'
      | .retry => start_validation (process_retry_queue env s')
      | .validate => start_validation s'

/-- The setup segment of the graph: the four unconditional edges
`initialize → load_products → create_folders → start_extraction`. -/
def setupPhase (env : Env) (s0 : WorkflowState) : WorkflowState :=
  start_extraction (create_folders (load_product_list env (initialize_workflow env s0)))

/-- The compiled graph of `create_advanced_workflow`, entry point
`initialize`: every inter-node edge is unconditional (`handle_error` has
no incoming edge), and the only conditional edges are the
`extract_parallel` exits. -/
def run_workflow (env : Env) (s0 : WorkflowState) : WorkflowState :=
  let s1 := initialize_workflow env s0
  let s2 := load_product_list env s1
  let s3 := create_folders s2
  let s4 := start_extraction s3
  save_summary (run_extraction_loop env (s4.products.length + 1) s4)

/-- The initial `WorkflowState` built in `main` (configuration surface as
parameters). -/
def mkInitialState (use_gcs : Bool) (gcs_bucket_name data_folder : String)
    (delay max_parallel config_max_retries : Nat) : WorkflowState :=
  { current_state := .initialized
    products := []
    extraction_results := []
    current_product_index := 0
    data_folder := data_folder
    headless_mode := true
    delay_between_products := delay
    max_parallel_extractions := max_parallel
    metrics := {}
    error := none
    retry_queue := []
    validation_queue := []
    config_max_retries := config_max_retries
    gcs_bucket_name := gcs_bucket_name
    use_gcs := use_gcs }

/-! ### Specification-side definitions

The definitions below are written from the words of the specification
(not from the source); they exist to be compared with the source-derived
definitions above. -/

/-- Spec wording of the per-field contribution: each of the six key
fields contributes 1.0 point when present — the map field only when a
non-empty map, the others when truthy. -/
def specFieldPoint (payload : Payload) (f : String) : ℚ :=
  if f == "key_attributes" then
    match pget payload f with
    | .dict d => if !d.isEmpty then 1 else 0
    | _ => 0
  else if (pget payload f).truthy then 1 else 0

/-- Spec wording of the confidence score: (sum of field points / total
weight) × 100, a produced image adding 0.5 to both numerator and
denominator, and 0 when the total weight is 0. -/
def confidenceSpec (payload : Payload) : ℚ :=
  let points := (keyFields.map (specFieldPoint payload)).sum
  let hasImage := (pget payload "image_downloaded").truthy
  let numerator := points + (if hasImage then 1/2 else 0)
  let total_weight : ℚ := 6 + (if hasImage then 1/2 else 0)
  if total_weight = 0 then 0 else numerator / total_weight * 100

/-- Spec wording of the sanitization claimed by C9: strip every
non-alphanumeric character except space, hyphen and underscore, then
replace spaces with underscores. -/
def specSanitizeName (name : String) : String :=
  ⟨(name.data.filter (fun c => pyIsAlnum c || c == ' ' || c == '-' || c == '_')).map
      (fun c => if c == ' ' then '_' else c)⟩

/-- Spec wording of the batch partition: consecutive batches of size
`min(B, remaining)` (structural fuel recursion; `chunkSizes` supplies
adequate fuel). -/
def chunkSizesAux (B : Nat) : Nat → Nat → List Nat
  | _, 0 => []
  | 0, _ + 1 => []
  | fuel + 1, n + 1 => min B (n + 1) :: chunkSizesAux B fuel (n + 1 - min B (n + 1))

/-- The batch sizes the spec predicts for `N` products at batch size `B`. -/
def chunkSizes (B N : Nat) : List Nat := chunkSizesAux B N N

/-- The payload lacks a (truthy) `title` field. -/
def titleMissing (r : ExtractionResult) : Bool :=
  match r.result with
  | some p => !(pget p "title").truthy
  | none => true

/-- Ascending product-name order (the sort key of the loaders). -/
def nameLe (a b : ProductData) : Prop := a.name ≤ b.name

instance : DecidableRel nameLe := fun a b => String.decidableLE a.name b.name

instance : IsTotal ProductData nameLe := ⟨fun a b => le_total a.name b.name⟩

instance : IsTrans ProductData nameLe := ⟨fun _ _ _ h h' => le_trans h h'⟩

/-- The attempt-log entry a product produces when handed to the
extraction agent. -/
def attemptKey (p : ProductData) : String × Nat := (p.name, p.retry_count)

/-! ### Concrete runs used by the scenario/counterexample theorems -/

/-- An environment whose product list is the single name "P" and whose
extraction collaborator always comes back empty-handed. -/
def alwaysFailEnv : Env :=
  { existing_file := some [.str "P"],
    extract := fun _ _ => { result := none } }

/-- A payload carrying only a title (scenario C). -/
def titleOnlyPayload : Payload := [("title", .str "X")]

/-- An environment with seven products that all extract successfully
(scenario A). -/
def sevenOkEnv : Env :=
  { existing_file :=
      some [.str "p1", .str "p2", .str "p3", .str "p4", .str "p5", .str "p6", .str "p7"],
    extract := fun _ _ => { result := some titleOnlyPayload } }

/-- An environment in which both product-list sources come up empty:
the setup (list-load) failure of the error-handling claims. -/
def noProductsEnv : Env := { extract := fun _ _ => { result := none } }

/-- Local-storage initial state with batch size 3 and `config["max_retries"] = 0`. -/
def localState3 : WorkflowState := mkInitialState false "" "data" 0 3 0

/-- A single product whose `max_retries` field is 2, as scenario B
posits (the loaders in fact always leave the dataclass default 3; the
scheduler reads only this per-product field). -/
def twoRetryProduct : ProductData := { name := "P", max_retries := 2 }

/-- The state in which the batch loop starts on a single product `p`
with batch size `B` (local storage, as after `start_extraction`). -/
def extractionEntryState (p : ProductData) (B : Nat) : WorkflowState :=
  { mkInitialState false "" "data" 0 B 2 with
      products := [p],
      current_state := .extraction_started }

/-- A payload in which all six key fields are present (the map field
with a non-empty map) and no image was produced. -/
def allFieldsPayload : Payload :=
  [("title", .str "T"), ("sku", .str "S"), ("brand", .str "B"),
   ("supplier", .str "U"), ("description", .str "D"),
   ("key_attributes", .dict [("colour", .str "red")])]

/-- The extraction phase (the `extract_parallel` loop with its exit
edges) as entered from `start_extraction`, with the fuel `run_workflow`
supplies. -/
def runExtractionPhase (env : Env) (s : WorkflowState) : WorkflowState :=
  run_extraction_loop env (s.products.length + 1) s

/-- A successful extraction result carrying scenario C's title-only
payload and its confidence score. -/
def scenarioCResult : ExtractionResult :=
  { product_name := "X-product", success := true,
    result := some titleOnlyPayload,
    folder_path := some "data/X-product",
    extraction_time := some 1,
    confidence_score := some (calculate_confidence_score titleOnlyPayload),
    validation_status := some "pending" }

/-- A successful result whose payload has no key fields at all, so its
computed confidence score is exactly 0 (counterexample to C5). -/
def zeroScorePayload : Payload := [("url", .str "x")]

/-- The zero-confidence successful result fed to the Validator in the
C5 counterexample. -/
def zeroScoreResult : ExtractionResult :=
  { product_name := "Z", success := true,
    result := some zeroScorePayload,
    extraction_time := some 1,
    confidence_score := some 0,
    validation_status := some "pending" }

end AdvancedExtractor

namespace AdvancedExtractor

theorem process_batch_product_const (ex : String → Nat → ExtractOutcome)
    (s : WorkflowState) (p : ProductData) :
    (process_batch_product ex s p).products = s.products ∧
    (process_batch_product ex s p).current_product_index = s.current_product_index ∧
    (process_batch_product ex s p).max_parallel_extractions = s.max_parallel_extractions ∧
    (process_batch_product ex s p).data_folder = s.data_folder ∧
    (process_batch_product ex s p).batch_log = s.batch_log ∧
    (process_batch_product ex s p).retry_passes = s.retry_passes ∧
    (process_batch_product ex s p).metrics.total_products = s.metrics.total_products := by
  unfold process_batch_product
  dsimp only
  split
  · simp
  · split <;> simp

theorem process_batch_product_counts (ex : String → Nat → ExtractOutcome)
    (s : WorkflowState) (p : ProductData) :
    (process_batch_product ex s p).metrics.successful_extractions
      + (process_batch_product ex s p).metrics.failed_extractions
      = s.metrics.successful_extractions + s.metrics.failed_extractions + 1 := by
  unfold process_batch_product
  dsimp only
  split
  · simp; omega
  · split <;> simp <;> omega

theorem process_batch_product_inv (ex : String → Nat → ExtractOutcome)
    (s : WorkflowState) (p : ProductData)
    (h : s.retry_enqueued = s.retry_queue.length) :
    (process_batch_product ex s p).retry_enqueued
      = (process_batch_product ex s p).retry_queue.length := by
  unfold process_batch_product
  dsimp only
  split
  · simpa using h
  · split <;> simp [h]

theorem process_batch_product_attempts (ex : String → Nat → ExtractOutcome)
    (s : WorkflowState) (p : ProductData) :
    (process_batch_product ex s p).attempts = s.attempts ++ [attemptKey p] := by
  unfold process_batch_product
  dsimp only
  split
  · simp [attemptKey]
  · split <;> simp [attemptKey]

theorem process_batch_product_results (ex : String → Nat → ExtractOutcome)
    (s : WorkflowState) (p : ProductData) :
    (process_batch_product ex s p).extraction_results
      = s.extraction_results ++ [(extract_single_product ex p s.data_folder).1] := by
  unfold process_batch_product
  dsimp only
  split
  · simp
  · split <;> simp

theorem process_batch_product_queue (ex : String → Nat → ExtractOutcome)
    (s : WorkflowState) (p : ProductData) :
    (process_batch_product ex s p).retry_queue = s.retry_queue ∨
    (process_batch_product ex s p).retry_queue
      = s.retry_queue ++ [{ p with retry_count := p.retry_count + 1 }] := by
  unfold process_batch_product
  dsimp only
  split
  · left; simp
  · split
    · right; simp
    · left; simp


theorem foldl_batch_const (ex : String → Nat → ExtractOutcome) (l : List ProductData) :
    ∀ s : WorkflowState,
    (l.foldl (process_batch_product ex) s).products = s.products ∧
    (l.foldl (process_batch_product ex) s).current_product_index = s.current_product_index ∧
    (l.foldl (process_batch_product ex) s).max_parallel_extractions = s.max_parallel_extractions ∧
    (l.foldl (process_batch_product ex) s).data_folder = s.data_folder ∧
    (l.foldl (process_batch_product ex) s).batch_log = s.batch_log ∧
    (l.foldl (process_batch_product ex) s).retry_passes = s.retry_passes ∧
    (l.foldl (process_batch_product ex) s).metrics.total_products = s.metrics.total_products := by
  induction l with
  | nil => intro s; simp
  | cons p t ih =>
      intro s
      simp only [List.foldl_cons]
      obtain ⟨h1, h2, h3, h4, h5, h6, h7⟩ := ih (process_batch_product ex s p)
      obtain ⟨g1, g2, g3, g4, g5, g6, g7⟩ := process_batch_product_const ex s p
      exact ⟨h1.trans g1, h2.trans g2, h3.trans g3, h4.trans g4, h5.trans g5,
             h6.trans g6, h7.trans g7⟩

theorem foldl_batch_counts (ex : String → Nat → ExtractOutcome) (l : List ProductData) :
    ∀ s : WorkflowState,
    (l.foldl (process_batch_product ex) s).metrics.successful_extractions
      + (l.foldl (process_batch_product ex) s).metrics.failed_extractions
      = s.metrics.successful_extractions + s.metrics.failed_extractions + l.length := by
  induction l with
  | nil => intro s; simp
  | cons p t ih =>
      intro s
      simp only [List.foldl_cons, List.length_cons]
      rw [ih (process_batch_product ex s p), process_batch_product_counts]
      omega

theorem foldl_batch_inv (ex : String → Nat → ExtractOutcome) (l : List ProductData) :
    ∀ s : WorkflowState, s.retry_enqueued = s.retry_queue.length →
    (l.foldl (process_batch_product ex) s).retry_enqueued
      = (l.foldl (process_batch_product ex) s).retry_queue.length := by
  induction l with
  | nil => intro s h; simpa using h
  | cons p t ih =>
      intro s h
      simp only [List.foldl_cons]
      exact ih _ (process_batch_product_inv ex s p h)

theorem foldl_batch_attempts (ex : String → Nat → ExtractOutcome) (l : List ProductData) :
    ∀ s : WorkflowState,
    (l.foldl (process_batch_product ex) s).attempts = s.attempts ++ l.map attemptKey := by
  induction l with
  | nil => intro s; simp
  | cons p t ih =>
      intro s
      simp only [List.foldl_cons, List.map_cons]
      rw [ih, process_batch_product_attempts]
      simp

theorem foldl_batch_queue (ex : String → Nat → ExtractOutcome) (l : List ProductData) :
    ∀ s : WorkflowState, ∀ q ∈ (l.foldl (process_batch_product ex) s).retry_queue,
      q ∈ s.retry_queue ∨ ∃ p ∈ l, q = { p with retry_count := p.retry_count + 1 } := by
  induction l with
  | nil => intro s q hq; exact Or.inl hq
  | cons p t ih =>
      intro s q hq
      simp only [List.foldl_cons] at hq
      rcases ih _ q hq with h | ⟨p', hp', rfl⟩
      · rcases process_batch_product_queue ex s p with hq' | hq' <;> rw [hq'] at h
        · exact Or.inl h
        · rcases List.mem_append.1 h with h | h
          · exact Or.inl h
          · simp only [List.mem_singleton] at h
            exact Or.inr ⟨p, List.mem_cons_self .., h⟩
      · exact Or.inr ⟨p', List.mem_cons_of_mem _ hp', rfl⟩

theorem foldl_batch_results_bound (ex : String → Nat → ExtractOutcome) (l : List ProductData) :
    ∀ s : WorkflowState,
      (∀ r ∈ s.extraction_results, r.retry_count ≤ 1) →
      (∀ p ∈ l, p.retry_count ≤ 1) →
      ∀ r ∈ (l.foldl (process_batch_product ex) s).extraction_results, r.retry_count ≤ 1 := by
  induction l with
  | nil => intro s hs _ r hr; exact hs r hr
  | cons p t ih =>
      intro s hs hl r hr
      simp only [List.foldl_cons] at hr
      refine ih _ ?_ (fun p' hp' => hl p' (List.mem_cons_of_mem _ hp')) r hr
      intro r' hr'
      rw [process_batch_product_results] at hr'
      rcases List.mem_append.1 hr' with h | h
      · exact hs r' h
      · simp only [List.mem_singleton] at h
        subst h
        have hname : (extract_single_product ex p s.data_folder).1.retry_count = p.retry_count := by
          unfold extract_single_product
          dsimp only
          split
          · rfl
          · split
            · split <;> rfl
            · rfl
        rw [hname]
        exact hl p (List.mem_cons_self ..)


theorem process_retry_product_const (ex : String → Nat → ExtractOutcome)
    (s : WorkflowState) (p : ProductData) :
    (process_retry_product ex s p).products = s.products ∧
    (process_retry_product ex s p).current_product_index = s.current_product_index ∧
    (process_retry_product ex s p).max_parallel_extractions = s.max_parallel_extractions ∧
    (process_retry_product ex s p).data_folder = s.data_folder ∧
    (process_retry_product ex s p).batch_log = s.batch_log ∧
    (process_retry_product ex s p).retry_passes = s.retry_passes ∧
    (process_retry_product ex s p).retry_queue = s.retry_queue ∧
    (process_retry_product ex s p).retry_enqueued = s.retry_enqueued ∧
    (process_retry_product ex s p).metrics.total_products = s.metrics.total_products := by
  unfold process_retry_product
  dsimp only
  split <;> simp

theorem process_retry_product_counts (ex : String → Nat → ExtractOutcome)
    (s : WorkflowState) (p : ProductData) :
    (process_retry_product ex s p).metrics.successful_extractions
      + (process_retry_product ex s p).metrics.failed_extractions
      = s.metrics.successful_extractions + s.metrics.failed_extractions + 1 := by
  unfold process_retry_product
  dsimp only
  split <;> simp <;> omega

theorem process_retry_product_attempts (ex : String → Nat → ExtractOutcome)
    (s : WorkflowState) (p : ProductData) :
    (process_retry_product ex s p).attempts = s.attempts ++ [attemptKey p] := by
  unfold process_retry_product
  dsimp only
  split <;> simp [attemptKey]

theorem extract_single_product_retry_count (ex : String → Nat → ExtractOutcome)
    (p : ProductData) (folder : String) :
    (extract_single_product ex p folder).1.retry_count = p.retry_count := by
  unfold extract_single_product
  dsimp only
  split
  · rfl
  · split
    · split <;> rfl
    · rfl

theorem extract_single_product_name (ex : String → Nat → ExtractOutcome)
    (p : ProductData) (folder : String) :
    (extract_single_product ex p folder).1.product_name = p.name := by
  unfold extract_single_product
  dsimp only
  split
  · rfl
  · split
    · split <;> rfl
    · rfl

theorem replaceResult_bound (results : List ExtractionResult) (new : ExtractionResult)
    (h : ∀ r ∈ results, r.retry_count ≤ 1) (hn : new.retry_count ≤ 1) :
    ∀ r ∈ replaceResult results new, r.retry_count ≤ 1 := by
  induction results with
  | nil => intro r hr; simp [replaceResult] at hr
  | cons a t ih =>
      intro r hr
      unfold replaceResult at hr
      split at hr
      · rcases List.mem_cons.1 hr with rfl | hr
        · exact hn
        · exact h r (List.mem_cons_of_mem _ hr)
      · rcases List.mem_cons.1 hr with rfl | hr
        · exact h r (List.mem_cons_self ..)
        · exact ih (fun r' hr' => h r' (List.mem_cons_of_mem _ hr')) r hr

theorem process_retry_product_results_bound (ex : String → Nat → ExtractOutcome)
    (s : WorkflowState) (p : ProductData)
    (h : ∀ r ∈ s.extraction_results, r.retry_count ≤ 1) (hp : p.retry_count ≤ 1) :
    ∀ r ∈ (process_retry_product ex s p).extraction_results, r.retry_count ≤ 1 := by
  have hrepl := replaceResult_bound s.extraction_results
    (extract_single_product ex p s.data_folder).1 h
    (by rw [extract_single_product_retry_count]; exact hp)
  unfold process_retry_product
  dsimp only
  split <;> simpa using hrepl

theorem foldl_retry_const (ex : String → Nat → ExtractOutcome) (l : List ProductData) :
    ∀ s : WorkflowState,
    (l.foldl (process_retry_product ex) s).products = s.products ∧
    (l.foldl (process_retry_product ex) s).current_product_index = s.current_product_index ∧
    (l.foldl (process_retry_product ex) s).max_parallel_extractions = s.max_parallel_extractions ∧
    (l.foldl (process_retry_product ex) s).data_folder = s.data_folder ∧
    (l.foldl (process_retry_product ex) s).batch_log = s.batch_log ∧
    (l.foldl (process_retry_product ex) s).retry_passes = s.retry_passes ∧
    (l.foldl (process_retry_product ex) s).retry_queue = s.retry_queue ∧
    (l.foldl (process_retry_product ex) s).retry_enqueued = s.retry_enqueued ∧
    (l.foldl (process_retry_product ex) s).metrics.total_products = s.metrics.total_products := by
  induction l with
  | nil => intro s; simp
  | cons p t ih =>
      intro s
      simp only [List.foldl_cons]
      obtain ⟨h1, h2, h3, h4, h5, h6, h7, h8, h9⟩ := ih (process_retry_product ex s p)
      obtain ⟨g1, g2, g3, g4, g5, g6, g7, g8, g9⟩ := process_retry_product_const ex s p
      exact ⟨h1.trans g1, h2.trans g2, h3.trans g3, h4.trans g4, h5.trans g5,
             h6.trans g6, h7.trans g7, h8.trans g8, h9.trans g9⟩

theorem foldl_retry_counts (ex : String → Nat → ExtractOutcome) (l : List ProductData) :
    ∀ s : WorkflowState,
    (l.foldl (process_retry_product ex) s).metrics.successful_extractions
      + (l.foldl (process_retry_product ex) s).metrics.failed_extractions
      = s.metrics.successful_extractions + s.metrics.failed_extractions + l.length := by
  induction l with
  | nil => intro s; simp
  | cons p t ih =>
      intro s
      simp only [List.foldl_cons, List.length_cons]
      rw [ih (process_retry_product ex s p), process_retry_product_counts]
      omega

theorem foldl_retry_attempts (ex : String → Nat → ExtractOutcome) (l : List ProductData) :
    ∀ s : WorkflowState,
    (l.foldl (process_retry_product ex) s).attempts = s.attempts ++ l.map attemptKey := by
  induction l with
  | nil => intro s; simp
  | cons p t ih =>
      intro s
      simp only [List.foldl_cons, List.map_cons]
      rw [ih, process_retry_product_attempts]
      simp

theorem foldl_retry_results_bound (ex : String → Nat → ExtractOutcome) (l : List ProductData) :
    ∀ s : WorkflowState,
      (∀ r ∈ s.extraction_results, r.retry_count ≤ 1) →
      (∀ p ∈ l, p.retry_count ≤ 1) →
      ∀ r ∈ (l.foldl (process_retry_product ex) s).extraction_results, r.retry_count ≤ 1 := by
  induction l with
  | nil => intro s hs _ r hr; exact hs r hr
  | cons p t ih =>
      intro s hs hl r hr
      simp only [List.foldl_cons] at hr
      exact ih _
        (process_retry_product_results_bound ex s p hs (hl p (List.mem_cons_self ..)))
        (fun p' hp' => hl p' (List.mem_cons_of_mem _ hp')) r hr


theorem process_retry_queue_const (env : Env) (s : WorkflowState) :
    (process_retry_queue env s).products = s.products ∧
    (process_retry_queue env s).current_product_index = s.current_product_index ∧
    (process_retry_queue env s).max_parallel_extractions = s.max_parallel_extractions ∧
    (process_retry_queue env s).data_folder = s.data_folder ∧
    (process_retry_queue env s).batch_log = s.batch_log ∧
    (process_retry_queue env s).retry_enqueued = s.retry_enqueued ∧
    (process_retry_queue env s).metrics.total_products = s.metrics.total_products ∧
    (process_retry_queue env s).retry_queue = [] := by
  unfold process_retry_queue
  split
  · next hq =>
      refine ⟨rfl, rfl, rfl, rfl, rfl, rfl, rfl, ?_⟩
      exact List.isEmpty_iff.1 hq
  · obtain ⟨h1, h2, h3, h4, h5, _, h7, h8, h9⟩ :=
      foldl_retry_const env.extract s.retry_queue
        { s with current_state := .retrying, retry_queue := [],
                 retry_passes := s.retry_passes + 1 }
    exact ⟨h1, h2, h3, h4, h5, h8, h9, h7⟩

theorem process_retry_queue_counts (env : Env) (s : WorkflowState) :
    (process_retry_queue env s).metrics.successful_extractions
      + (process_retry_queue env s).metrics.failed_extractions
      = s.metrics.successful_extractions + s.metrics.failed_extractions
        + s.retry_queue.length := by
  unfold process_retry_queue
  split
  · next hq => rw [List.isEmpty_iff.1 hq]; simp
  · rw [foldl_retry_counts]

theorem process_retry_queue_attempts (env : Env) (s : WorkflowState) :
    (process_retry_queue env s).attempts = s.attempts ++ s.retry_queue.map attemptKey := by
  unfold process_retry_queue
  split
  · next hq => rw [List.isEmpty_iff.1 hq]; simp
  · rw [foldl_retry_attempts]

theorem process_retry_queue_results_bound (env : Env) (s : WorkflowState)
    (hs : ∀ r ∈ s.extraction_results, r.retry_count ≤ 1)
    (hq : ∀ q ∈ s.retry_queue, q.retry_count ≤ 1) :
    ∀ r ∈ (process_retry_queue env s).extraction_results, r.retry_count ≤ 1 := by
  unfold process_retry_queue
  split
  · exact hs
  · exact foldl_retry_results_bound env.extract s.retry_queue _ hs hq

theorem validate_extraction_result_retry_count (r : ExtractionResult) :
    (validate_extraction_result r).retry_count = r.retry_count := by
  unfold validate_extraction_result
  split
  · rfl
  · dsimp only
    split <;> rfl

theorem start_validation_const (s : WorkflowState) :
    (start_validation s).metrics = s.metrics ∧
    (start_validation s).attempts = s.attempts ∧
    (start_validation s).batch_log = s.batch_log ∧
    (start_validation s).retry_queue = s.retry_queue ∧
    (start_validation s).retry_enqueued = s.retry_enqueued ∧
    (start_validation s).retry_passes = s.retry_passes ∧
    (start_validation s).current_state = ProductState.validation_completed := by
  exact ⟨rfl, rfl, rfl, rfl, rfl, rfl, rfl⟩

theorem start_validation_results_bound (s : WorkflowState)
    (hs : ∀ r ∈ s.extraction_results, r.retry_count ≤ 1) :
    ∀ r ∈ (start_validation s).extraction_results, r.retry_count ≤ 1 := by
  intro r hr
  simp only [start_validation, List.mem_map] at hr
  obtain ⟨r', hr', rfl⟩ := hr
  rw [validate_extraction_result_retry_count]
  exact hs r' hr'

theorem save_summary_const (s : WorkflowState) :
    (save_summary s).metrics.successful_extractions = s.metrics.successful_extractions ∧
    (save_summary s).metrics.failed_extractions = s.metrics.failed_extractions ∧
    (save_summary s).metrics.total_products = s.metrics.total_products ∧
    (save_summary s).attempts = s.attempts ∧
    (save_summary s).batch_log = s.batch_log ∧
    (save_summary s).retry_queue = s.retry_queue ∧
    (save_summary s).retry_enqueued = s.retry_enqueued ∧
    (save_summary s).retry_passes = s.retry_passes ∧
    (save_summary s).current_state = s.current_state ∧
    (save_summary s).extraction_results = s.extraction_results := by
  unfold save_summary
  dsimp only
  split <;> split <;> simp

theorem extract_products_parallel_ge (env : Env) (s : WorkflowState)
    (h : s.products.length ≤ s.current_product_index) :
    extract_products_parallel env s = { s with current_state := .extraction_completed } := by
  unfold extract_products_parallel
  rw [if_pos h]


theorem extract_products_parallel_lt (env : Env) (s : WorkflowState)
    (h : s.current_product_index < s.products.length) :
    (extract_products_parallel env s).products = s.products ∧
    (extract_products_parallel env s).max_parallel_extractions = s.max_parallel_extractions ∧
    (extract_products_parallel env s).data_folder = s.data_folder ∧
    (extract_products_parallel env s).current_product_index
      = s.current_product_index
        + min s.max_parallel_extractions (s.products.length - s.current_product_index) ∧
    (extract_products_parallel env s).batch_log
      = s.batch_log
        ++ [min s.max_parallel_extractions (s.products.length - s.current_product_index)] ∧
    (extract_products_parallel env s).retry_passes = s.retry_passes ∧
    (extract_products_parallel env s).metrics.total_products = s.metrics.total_products ∧
    (extract_products_parallel env s).attempts
      = s.attempts
        ++ ((s.products.drop s.current_product_index).take
              (min s.max_parallel_extractions
                (s.products.length - s.current_product_index))).map attemptKey ∧
    (extract_products_parallel env s).metrics.successful_extractions
        + (extract_products_parallel env s).metrics.failed_extractions
      = s.metrics.successful_extractions + s.metrics.failed_extractions
        + min s.max_parallel_extractions (s.products.length - s.current_product_index) := by
  unfold extract_products_parallel
  rw [if_neg (not_le.2 h)]
  dsimp only
  obtain ⟨h1, h2, h3, h4, h5, h6, h7⟩ := foldl_batch_const env.extract
    ((s.products.drop s.current_product_index).take
      (min s.max_parallel_extractions (s.products.length - s.current_product_index))) s
  refine ⟨h1, h3, h4, rfl, ?_, h6, h7, ?_, ?_⟩
  · rw [h5]
  · rw [foldl_batch_attempts]
  · rw [foldl_batch_counts]
    congr 1
    simp only [List.length_take, List.length_drop]
    omega

theorem extract_products_parallel_inv (env : Env) (s : WorkflowState)
    (hinv : s.retry_enqueued = s.retry_queue.length) :
    (extract_products_parallel env s).retry_enqueued
      = (extract_products_parallel env s).retry_queue.length := by
  unfold extract_products_parallel
  split
  · exact hinv
  · dsimp only
    rw [foldl_batch_inv _ _ _ hinv]

theorem extract_products_parallel_queue (env : Env) (s : WorkflowState) :
    ∀ q ∈ (extract_products_parallel env s).retry_queue,
      q ∈ s.retry_queue ∨ ∃ p ∈ s.products, q = { p with retry_count := p.retry_count + 1 } := by
  unfold extract_products_parallel
  split
  · intro q hq; exact Or.inl hq
  · dsimp only
    intro q hq
    rcases foldl_batch_queue env.extract _ s q hq with h | ⟨p, hp, rfl⟩
    · exact Or.inl h
    · exact Or.inr ⟨p, List.drop_subset _ _ (List.take_subset _ _ hp), rfl⟩

theorem extract_products_parallel_results_bound (env : Env) (s : WorkflowState)
    (hs : ∀ r ∈ s.extraction_results, r.retry_count ≤ 1)
    (hp : ∀ p ∈ s.products, p.retry_count ≤ 1) :
    ∀ r ∈ (extract_products_parallel env s).extraction_results, r.retry_count ≤ 1 := by
  unfold extract_products_parallel
  split
  · exact hs
  · dsimp only
    exact foldl_batch_results_bound env.extract _ s hs
      (fun p hp' => hp p (List.drop_subset _ _ (List.take_subset _ _ hp')))

theorem chunkSizesAux_fuel (B : Nat) (hB : 1 ≤ B) :
    ∀ n f, n ≤ f → chunkSizesAux B f n = chunkSizes B n := by
  intro n
  induction n using Nat.strong_induction_on with
  | _ n ih =>
    match n with
    | 0 => intro f _; cases f <;> rfl
    | n + 1 =>
        intro f hf
        match f, hf with
        | f + 1, hf =>
          have hbs : 1 ≤ min B (n + 1) := le_min hB (Nat.succ_le_succ (Nat.zero_le n))
          have hm : n + 1 - min B (n + 1) < n + 1 := by omega
          show min B (n + 1) :: chunkSizesAux B f (n + 1 - min B (n + 1)) = chunkSizes B (n + 1)
          have hrhs : chunkSizes B (n + 1)
              = min B (n + 1) :: chunkSizesAux B n (n + 1 - min B (n + 1)) := rfl
          rw [hrhs, ih _ hm f (by omega), ih _ hm n (by omega)]

theorem chunkSizes_succ (B : Nat) (hB : 1 ≤ B) (n : Nat) :
    chunkSizes B (n + 1)
      = min B (n + 1) :: chunkSizes B (n + 1 - min B (n + 1)) := by
  have hbs : 1 ≤ min B (n + 1) := le_min hB (Nat.succ_le_succ (Nat.zero_le n))
  have : chunkSizes B (n + 1)
      = min B (n + 1) :: chunkSizesAux B n (n + 1 - min B (n + 1)) := rfl
  rw [this, chunkSizesAux_fuel B hB _ n (by omega)]

theorem chunkSizes_length (B : Nat) (hB : 1 ≤ B) :
    ∀ N, (chunkSizes B N).length = (N + B - 1) / B := by
  intro N
  induction N using Nat.strong_induction_on with
  | _ N ih =>
    match N with
    | 0 =>
        simp only [chunkSizes, chunkSizesAux, List.length_nil]
        exact (Nat.div_eq_of_lt (by omega)).symm
    | n + 1 =>
        rw [chunkSizes_succ B hB n]
        have hbs : 1 ≤ min B (n + 1) := le_min hB (Nat.succ_le_succ (Nat.zero_le n))
        rw [List.length_cons, ih (n + 1 - min B (n + 1)) (by omega)]
        rcases le_or_lt B (n + 1) with hc | hc
        · have h1 : min B (n + 1) = B := min_eq_left hc
          rw [h1]
          have h3 : n + 1 + B - 1 = n + B := by omega
          have h4 : n + 1 - B + B - 1 = n := by omega
          rw [h3, h4, Nat.add_div_right _ (by omega)]
        · have h1 : min B (n + 1) = n + 1 := min_eq_right (by omega)
          rw [h1]
          simp only [Nat.sub_self]
          have h2 : n + 1 + B - 1 = n + B := by omega
          have e1 : 0 + B - 1 = B - 1 := by omega
          rw [h2, e1, Nat.div_eq_of_lt (show B - 1 < B by omega),
            Nat.add_div_right _ (show 0 < B by omega),
            Nat.div_eq_of_lt (show n < B by omega)]

theorem chunkSizes_sum (B : Nat) (hB : 1 ≤ B) :
    ∀ N, (chunkSizes B N).sum = N := by
  intro N
  induction N using Nat.strong_induction_on with
  | _ N ih =>
    match N with
    | 0 => rfl
    | n + 1 =>
        rw [chunkSizes_succ B hB n]
        have hbs : 1 ≤ min B (n + 1) := le_min hB (Nat.succ_le_succ (Nat.zero_le n))
        rw [List.sum_cons, ih (n + 1 - min B (n + 1)) (by omega)]
        omega


theorem should_continue_cont (s : WorkflowState)
    (h : s.current_product_index < s.products.length) :
    should_continue_extraction s = Route.cont := by
  unfold should_continue_extraction
  rw [if_neg (not_le.2 h)]

theorem should_continue_retry (s : WorkflowState)
    (h : s.products.length ≤ s.current_product_index) (hq : s.retry_queue ≠ []) :
    should_continue_extraction s = Route.retry := by
  unfold should_continue_extraction
  rw [if_pos h, if_pos]
  simpa using hq

theorem should_continue_validate (s : WorkflowState)
    (h : s.products.length ≤ s.current_product_index) (hq : s.retry_queue = []) :
    should_continue_extraction s = Route.validate := by
  unfold should_continue_extraction
  rw [if_pos h, if_neg]
  simp [hq]

theorem chunkSizes_pos (B : Nat) (hB : 1 ≤ B) (m : Nat) (hm : 1 ≤ m) :
    chunkSizes B m = min B m :: chunkSizes B (m - min B m) := by
  match m, hm with
  | m + 1, _ => exact chunkSizes_succ B hB m

theorem run_extraction_loop_succ (env : Env) (fuel : Nat) (s : WorkflowState) :
    run_extraction_loop env (fuel + 1) s
      = match should_continue_extraction (extract_products_parallel env s) with
        | Route.cont => run_extraction_loop env fuel (extract_products_parallel env s)
        | Route.retry =>
            start_validation (process_retry_queue env (extract_products_parallel env s))
        | Route.validate => start_validation (extract_products_parallel env s) := rfl

theorem run_extraction_loop_batch_log (env : Env) :
    ∀ (fuel : Nat) (s : WorkflowState),
      1 ≤ s.max_parallel_extractions →
      s.products.length - s.current_product_index < fuel →
      (run_extraction_loop env fuel s).batch_log
        = s.batch_log
          ++ chunkSizes s.max_parallel_extractions
              (s.products.length - s.current_product_index) := by
  intro fuel
  induction fuel with
  | zero => intro s _ hf; exact absurd hf (Nat.not_lt_zero _)
  | succ fuel ih =>
      intro s hB hf
      rw [run_extraction_loop_succ]
      rcases le_or_lt s.products.length s.current_product_index with hge | hlt
      · have hΔ : s.products.length - s.current_product_index = 0 := by omega
        rw [hΔ]
        have hepp := extract_products_parallel_ge env s hge
        have hbl' : (extract_products_parallel env s).batch_log = s.batch_log := by
          rw [hepp]
        by_cases hq : s.retry_queue = []
        · have hroute : should_continue_extraction (extract_products_parallel env s)
              = Route.validate := by
            rw [hepp]; exact should_continue_validate _ hge hq
          rw [hroute]
          dsimp only
          obtain ⟨_, _, hbl, _, _, _, _⟩ :=
            start_validation_const (extract_products_parallel env s)
          rw [hbl, hbl']
          simp [chunkSizes, chunkSizesAux]
        · have hroute : should_continue_extraction (extract_products_parallel env s)
              = Route.retry := by
            rw [hepp]; exact should_continue_retry _ hge hq
          rw [hroute]
          dsimp only
          obtain ⟨_, _, hbl, _, _, _, _⟩ :=
            start_validation_const (process_retry_queue env (extract_products_parallel env s))
          rw [hbl]
          obtain ⟨_, _, _, _, hbl2, _, _, _⟩ :=
            process_retry_queue_const env (extract_products_parallel env s)
          rw [hbl2, hbl']
          simp [chunkSizes, chunkSizesAux]
      · obtain ⟨hP, hM, hD, hI, hL, hRp, hT, hAt, hA⟩ :=
          extract_products_parallel_lt env s hlt
        have hbs1 : 1 ≤ min s.max_parallel_extractions
            (s.products.length - s.current_product_index) := le_min hB (by omega)
        have hbs2 : min s.max_parallel_extractions
            (s.products.length - s.current_product_index)
              ≤ s.products.length - s.current_product_index := min_le_right _ _
        have hchunk := chunkSizes_pos s.max_parallel_extractions hB
          (s.products.length - s.current_product_index) (by omega)
        rcases le_or_lt s.products.length
            (extract_products_parallel env s).current_product_index with hge' | hlt'
        · have hge'' : (extract_products_parallel env s).products.length
              ≤ (extract_products_parallel env s).current_product_index := by
            rw [hP]; exact hge'
          have hΔ0 : s.products.length - s.current_product_index
              - min s.max_parallel_extractions
                  (s.products.length - s.current_product_index) = 0 := by
            rw [hI] at hge'; omega
          by_cases hq : (extract_products_parallel env s).retry_queue = []
          · have hroute : should_continue_extraction (extract_products_parallel env s)
                = Route.validate := should_continue_validate _ hge'' hq
            rw [hroute]
            dsimp only
            obtain ⟨_, _, hbl, _, _, _, _⟩ :=
              start_validation_const (extract_products_parallel env s)
            rw [hbl, hL, hchunk, hΔ0]
            simp [chunkSizes, chunkSizesAux]
          · have hroute : should_continue_extraction (extract_products_parallel env s)
                = Route.retry := should_continue_retry _ hge'' hq
            rw [hroute]
            dsimp only
            obtain ⟨_, _, hbl, _, _, _, _⟩ :=
              start_validation_const (process_retry_queue env
                (extract_products_parallel env s))
            rw [hbl]
            obtain ⟨_, _, _, _, hbl2, _, _, _⟩ :=
              process_retry_queue_const env (extract_products_parallel env s)
            rw [hbl2, hL, hchunk, hΔ0]
            simp [chunkSizes, chunkSizesAux]
        · have hlt'' : (extract_products_parallel env s).current_product_index
              < (extract_products_parallel env s).products.length := by
            rw [hP]; exact hlt'
          have hroute : should_continue_extraction (extract_products_parallel env s)
              = Route.cont := should_continue_cont _ hlt''
          rw [hroute]
          dsimp only
          have hB' : 1 ≤ (extract_products_parallel env s).max_parallel_extractions := by
            rw [hM]; exact hB
          have hf' : (extract_products_parallel env s).products.length
              - (extract_products_parallel env s).current_product_index < fuel := by
            rw [hP, hI]; rw [hI] at hlt'; omega
          rw [ih _ hB' hf', hL, hM, hP, hI, hchunk]
          have heq : s.products.length - (s.current_product_index
              + min s.max_parallel_extractions
                  (s.products.length - s.current_product_index))
            = s.products.length - s.current_product_index
              - min s.max_parallel_extractions
                  (s.products.length - s.current_product_index) := by omega
          rw [heq]
          simp


theorem run_extraction_loop_final (env : Env) :
    ∀ (fuel : Nat) (s : WorkflowState),
      1 ≤ s.max_parallel_extractions →
      s.products.length - s.current_product_index < fuel →
      (run_extraction_loop env fuel s).metrics.total_products = s.metrics.total_products ∧
      (run_extraction_loop env fuel s).current_state = ProductState.validation_completed ∧
      (run_extraction_loop env fuel s).retry_queue = [] := by
  intro fuel
  induction fuel with
  | zero => intro s _ hf; exact absurd hf (Nat.not_lt_zero _)
  | succ fuel ih =>
      intro s hB hf
      rw [run_extraction_loop_succ]
      rcases le_or_lt s.products.length s.current_product_index with hge | hlt
      · have hepp := extract_products_parallel_ge env s hge
        by_cases hq : s.retry_queue = []
        · have hroute : should_continue_extraction (extract_products_parallel env s)
              = Route.validate := by
            rw [hepp]; exact should_continue_validate _ hge hq
          rw [hroute]
          dsimp only
          obtain ⟨hm, _, _, hrq, _, _, hcs⟩ :=
            start_validation_const (extract_products_parallel env s)
          rw [hm, hrq, hcs, hepp]
          exact ⟨rfl, rfl, hq⟩
        · have hroute : should_continue_extraction (extract_products_parallel env s)
              = Route.retry := by
            rw [hepp]; exact should_continue_retry _ hge hq
          rw [hroute]
          dsimp only
          obtain ⟨hm, _, _, hrq, _, _, hcs⟩ :=
            start_validation_const (process_retry_queue env (extract_products_parallel env s))
          obtain ⟨_, _, _, _, _, _, ht2, hq2⟩ :=
            process_retry_queue_const env (extract_products_parallel env s)
          refine ⟨?_, hcs, ?_⟩
          · rw [hm, ht2, hepp]
          · rw [hrq, hq2]
      · obtain ⟨hP, hM, hD, hI, hL, hRp, hT, hAt, hA⟩ :=
          extract_products_parallel_lt env s hlt
        rcases le_or_lt s.products.length
            (extract_products_parallel env s).current_product_index with hge' | hlt'
        · have hge'' : (extract_products_parallel env s).products.length
              ≤ (extract_products_parallel env s).current_product_index := by
            rw [hP]; exact hge'
          by_cases hq : (extract_products_parallel env s).retry_queue = []
          · have hroute : should_continue_extraction (extract_products_parallel env s)
                = Route.validate := should_continue_validate _ hge'' hq
            rw [hroute]
            dsimp only
            obtain ⟨hm, _, _, hrq, _, _, hcs⟩ :=
              start_validation_const (extract_products_parallel env s)
            rw [hm, hrq, hcs, hT]
            exact ⟨rfl, rfl, hq⟩
          · have hroute : should_continue_extraction (extract_products_parallel env s)
                = Route.retry := should_continue_retry _ hge'' hq
            rw [hroute]
            dsimp only
            obtain ⟨hm, _, _, hrq, _, _, hcs⟩ :=
              start_validation_const (process_retry_queue env
                (extract_products_parallel env s))
            obtain ⟨_, _, _, _, _, _, ht2, hq2⟩ :=
              process_retry_queue_const env (extract_products_parallel env s)
            refine ⟨?_, hcs, ?_⟩
            · rw [hm, ht2, hT]
            · rw [hrq, hq2]
        · have hlt'' : (extract_products_parallel env s).current_product_index
              < (extract_products_parallel env s).products.length := by
            rw [hP]; exact hlt'
          have hroute : should_continue_extraction (extract_products_parallel env s)
              = Route.cont := should_continue_cont _ hlt''
          rw [hroute]
          dsimp only
          have hB' : 1 ≤ (extract_products_parallel env s).max_parallel_extractions := by
            rw [hM]; exact hB
          have hf' : (extract_products_parallel env s).products.length
              - (extract_products_parallel env s).current_product_index < fuel := by
            rw [hP, hI]; rw [hI] at hlt'
            have hbs1 : 1 ≤ min s.max_parallel_extractions
                (s.products.length - s.current_product_index) := le_min hB (by omega)
            omega
          obtain ⟨h1, h2, h3⟩ := ih (extract_products_parallel env s) hB' hf'
          exact ⟨h1.trans hT, h2, h3⟩

theorem run_extraction_loop_counts (env : Env) :
    ∀ (fuel : Nat) (s : WorkflowState),
      1 ≤ s.max_parallel_extractions →
      s.products.length - s.current_product_index < fuel →
      s.retry_enqueued = s.retry_queue.length →
      (run_extraction_loop env fuel s).metrics.successful_extractions
          + (run_extraction_loop env fuel s).metrics.failed_extractions
        = s.metrics.successful_extractions + s.metrics.failed_extractions
          + (s.products.length - s.current_product_index)
          + (run_extraction_loop env fuel s).retry_enqueued := by
  intro fuel
  induction fuel with
  | zero => intro s _ hf; exact absurd hf (Nat.not_lt_zero _)
  | succ fuel ih =>
      intro s hB hf hinv
      rw [run_extraction_loop_succ]
      rcases le_or_lt s.products.length s.current_product_index with hge | hlt
      · have hΔ : s.products.length - s.current_product_index = 0 := by omega
        rw [hΔ]
        have hepp := extract_products_parallel_ge env s hge
        by_cases hq : s.retry_queue = []
        · have hroute : should_continue_extraction (extract_products_parallel env s)
              = Route.validate := by
            rw [hepp]; exact should_continue_validate _ hge hq
          rw [hroute]
          dsimp only
          obtain ⟨hm, _, _, _, hre, _, _⟩ :=
            start_validation_const (extract_products_parallel env s)
          rw [hm, hre, hepp]
          dsimp only
          have : s.retry_enqueued = 0 := by rw [hinv, hq]; rfl
          omega
        · have hroute : should_continue_extraction (extract_products_parallel env s)
              = Route.retry := by
            rw [hepp]; exact should_continue_retry _ hge hq
          rw [hroute]
          dsimp only
          obtain ⟨hm, _, _, _, hre, _, _⟩ :=
            start_validation_const (process_retry_queue env (extract_products_parallel env s))
          rw [hm, hre]
          have hc := process_retry_queue_counts env (extract_products_parallel env s)
          obtain ⟨_, _, _, _, _, hre2, _, _⟩ :=
            process_retry_queue_const env (extract_products_parallel env s)
          rw [hc, hre2, hepp]
          dsimp only
          omega
      · obtain ⟨hP, hM, hD, hI, hL, hRp, hT, hAt, hA⟩ :=
          extract_products_parallel_lt env s hlt
        have hbs1 : 1 ≤ min s.max_parallel_extractions
            (s.products.length - s.current_product_index) := le_min hB (by omega)
        have hbs2 : min s.max_parallel_extractions
            (s.products.length - s.current_product_index)
              ≤ s.products.length - s.current_product_index := min_le_right _ _
        have hinv' : (extract_products_parallel env s).retry_enqueued
            = (extract_products_parallel env s).retry_queue.length :=
          extract_products_parallel_inv env s hinv
        rcases le_or_lt s.products.length
            (extract_products_parallel env s).current_product_index with hge' | hlt'
        · have hge'' : (extract_products_parallel env s).products.length
              ≤ (extract_products_parallel env s).current_product_index := by
            rw [hP]; exact hge'
          have hbsΔ : min s.max_parallel_extractions
              (s.products.length - s.current_product_index)
                = s.products.length - s.current_product_index := by
            rw [hI] at hge'; omega
          by_cases hq : (extract_products_parallel env s).retry_queue = []
          · have hroute : should_continue_extraction (extract_products_parallel env s)
                = Route.validate := should_continue_validate _ hge'' hq
            rw [hroute]
            dsimp only
            obtain ⟨hm, _, _, _, hre, _, _⟩ :=
              start_validation_const (extract_products_parallel env s)
            rw [hm, hre, hA]
            have : (extract_products_parallel env s).retry_enqueued = 0 := by
              rw [hinv', hq]; rfl
            omega
          · have hroute : should_continue_extraction (extract_products_parallel env s)
                = Route.retry := should_continue_retry _ hge'' hq
            rw [hroute]
            dsimp only
            obtain ⟨hm, _, _, _, hre, _, _⟩ :=
              start_validation_const (process_retry_queue env
                (extract_products_parallel env s))
            rw [hm, hre]
            have hc := process_retry_queue_counts env (extract_products_parallel env s)
            obtain ⟨_, _, _, _, _, hre2, _, _⟩ :=
              process_retry_queue_const env (extract_products_parallel env s)
            rw [hc, hre2, hA]
            omega
        · have hlt'' : (extract_products_parallel env s).current_product_index
              < (extract_products_parallel env s).products.length := by
            rw [hP]; exact hlt'
          have hroute : should_continue_extraction (extract_products_parallel env s)
              = Route.cont := should_continue_cont _ hlt''
          rw [hroute]
          dsimp only
          have hB' : 1 ≤ (extract_products_parallel env s).max_parallel_extractions := by
            rw [hM]; exact hB
          have hf' : (extract_products_parallel env s).products.length
              - (extract_products_parallel env s).current_product_index < fuel := by
            rw [hP, hI]; rw [hI] at hlt'; omega
          have hrec := ih (extract_products_parallel env s) hB' hf' hinv'
          rw [hrec, hA, hP, hI]
          omega


theorem charListLt_iff : ∀ as bs : List Char, charListLt as bs = true ↔ as < bs := by
  intro as
  induction as with
  | nil =>
      intro bs
      cases bs with
      | nil =>
          simp only [charListLt]
          constructor
          · intro h; exact absurd h (by simp)
          · intro h; cases h
      | cons b bs =>
          simp only [charListLt]
          exact ⟨fun _ => List.Lex.nil, fun _ => by simp⟩
  | cons a as ih =>
      intro bs
      cases bs with
      | nil =>
          simp only [charListLt]
          constructor
          · intro h; exact absurd h (by simp)
          · intro h; cases h
      | cons b bs =>
          simp only [charListLt]
          by_cases hab : a < b
          · rw [if_pos hab]
            exact ⟨fun _ => List.Lex.rel hab, fun _ => by simp⟩
          · rw [if_neg hab]
            by_cases hba : b < a
            · rw [if_pos hba]
              constructor
              · intro h; exact absurd h (by simp)
              · intro h
                cases h with
                | rel h' => exact absurd h' hab
                | cons h' => exact absurd hba (lt_irrefl a)
            · rw [if_neg hba]
              have heq : a = b := le_antisymm (not_lt.1 hba) (not_lt.1 hab)
              subst heq
              constructor
              · intro h; exact List.Lex.cons ((ih bs).1 h)
              · intro h
                cases h with
                | rel h' => exact absurd h' hab
                | cons h' => exact (ih bs).2 h'

theorem pyStrLt_iff (a b : String) : pyStrLt a b = true ↔ a < b := by
  rw [String.lt_iff_toList_lt]
  exact charListLt_iff a.data b.data

theorem insertByName_eq_orderedInsert (p : ProductData) :
    ∀ l : List ProductData, insertByName p l = List.orderedInsert nameLe p l := by
  intro l
  induction l with
  | nil => rfl
  | cons q rest ih =>
      simp only [insertByName, List.orderedInsert]
      by_cases h : pyStrLt q.name p.name = true
      · have hlt : q.name < p.name := (pyStrLt_iff _ _).1 h
        have hn : ¬ nameLe p q := not_le.2 hlt
        rw [if_pos h, if_neg hn, ih]
      · have hle : nameLe p q :=
          le_of_not_lt (fun hlt => h ((pyStrLt_iff _ _).2 hlt))
        rw [if_neg h, if_pos hle]

theorem sortByName_eq_insertionSort (l : List ProductData) :
    sortByName l = List.insertionSort nameLe l := by
  induction l with
  | nil => rfl
  | cons p rest ih =>
      simp only [sortByName, List.foldr_cons, List.insertionSort]
      rw [← sortByName]
      rw [ih, insertByName_eq_orderedInsert]

theorem sortByName_sorted (l : List ProductData) :
    List.Sorted nameLe (sortByName l) := by
  rw [sortByName_eq_insertionSort]
  exact List.sorted_insertionSort nameLe l

theorem sortByName_perm (l : List ProductData) : (sortByName l).Perm l := by
  rw [sortByName_eq_insertionSort]
  exact List.perm_insertionSort nameLe l

theorem load_existing_products_sorted (d : List JValue) :
    List.Sorted nameLe (load_existing_products d) := sortByName_sorted _

theorem load_existing_products_perm (d : List JValue) :
    (load_existing_products d).Perm (convertRawProducts d) := sortByName_perm _

theorem extract_from_iprocure_sorted (raw : List JValue) :
    List.Sorted nameLe (extract_from_iprocure raw) := by
  unfold extract_from_iprocure
  split
  · exact List.sorted_nil
  · exact sortByName_sorted _

theorem extract_from_iprocure_perm (raw : List JValue) :
    (extract_from_iprocure raw).Perm
      (if raw.isEmpty then [] else convertRawProducts raw) := by
  unfold extract_from_iprocure
  by_cases h : raw.isEmpty
  · rw [if_pos h, if_pos h]
  · rw [if_neg h, if_neg h]
    exact sortByName_perm _

theorem convertRawProducts_fields (raw : List JValue) :
    ∀ p ∈ convertRawProducts raw, p.retry_count = 0 ∧ p.max_retries = 3 := by
  intro p hp
  simp only [convertRawProducts, List.mem_filterMap] at hp
  obtain ⟨v, _, he⟩ := hp
  cases v <;> simp only [rawToProduct?, Option.some.injEq] at he <;> try exact absurd he (by simp)
  case str s => rw [← he]; exact ⟨rfl, rfl⟩
  case dict fields => rw [← he]; exact ⟨rfl, rfl⟩

theorem loadedProducts_fields (env : Env) :
    ∀ p ∈ loadedProducts env, p.retry_count = 0 ∧ p.max_retries = 3 := by
  intro p hp
  unfold loadedProducts at hp
  dsimp only at hp
  split at hp
  · unfold extract_from_iprocure at hp
    split at hp
    · exact absurd hp (by simp)
    · exact convertRawProducts_fields _ p ((sortByName_perm _).mem_iff.1 hp)
  · rcases henv : env.existing_file with _ | d <;> rw [henv] at hp
    · exact absurd hp (by simp)
    · exact convertRawProducts_fields _ p ((sortByName_perm _).mem_iff.1 hp)


theorem fieldPoints_eq_spec (payload : Payload) (f : String) :
    fieldPoints payload f = specFieldPoint payload f := by
  unfold fieldPoints specFieldPoint
  by_cases hf : (f == "key_attributes") = true
  · rcases hv : pget payload f with _ | s | q | b | d | l
    · simp [hv, hf, JValue.truthy]
    · simp [hv, hf, JValue.truthy]
    · simp [hv, hf, JValue.truthy]
    · cases b <;> simp [hv, hf, JValue.truthy]
    · cases d <;> simp [hv, hf, JValue.truthy]
    · simp [hv, hf, JValue.truthy]
  · simp [hf]

theorem fieldPoints_nonneg (payload : Payload) (f : String) :
    0 ≤ fieldPoints payload f := by
  unfold fieldPoints
  repeat' split
  all_goals norm_num

theorem fieldPoints_le_one (payload : Payload) (f : String) :
    fieldPoints payload f ≤ 1 := by
  unfold fieldPoints
  repeat' split
  all_goals norm_num

theorem keyFields_sum_bounds (payload : Payload) :
    0 ≤ (keyFields.map (fieldPoints payload)).sum ∧
    (keyFields.map (fieldPoints payload)).sum ≤ 6 := by
  have a1 := fieldPoints_nonneg payload "title"
  have a2 := fieldPoints_nonneg payload "sku"
  have a3 := fieldPoints_nonneg payload "brand"
  have a4 := fieldPoints_nonneg payload "supplier"
  have a5 := fieldPoints_nonneg payload "description"
  have a6 := fieldPoints_nonneg payload "key_attributes"
  have b1 := fieldPoints_le_one payload "title"
  have b2 := fieldPoints_le_one payload "sku"
  have b3 := fieldPoints_le_one payload "brand"
  have b4 := fieldPoints_le_one payload "supplier"
  have b5 := fieldPoints_le_one payload "description"
  have b6 := fieldPoints_le_one payload "key_attributes"
  simp only [keyFields, List.map_cons, List.map_nil, List.sum_cons, List.sum_nil]
  constructor <;> linarith

theorem keyFields_length_q : ((keyFields.length : ℚ)) = 6 := by
  norm_num [keyFields]

theorem calculate_confidence_score_eq (payload : Payload) :
    calculate_confidence_score payload = confidenceSpec payload := by
  unfold calculate_confidence_score confidenceSpec
  dsimp only
  have hmap : keyFields.map (fieldPoints payload) = keyFields.map (specFieldPoint payload) :=
    List.map_congr_left (fun f _ => fieldPoints_eq_spec payload f)
  rw [hmap, keyFields_length_q]
  by_cases him : (pget payload "image_downloaded").truthy = true
  · norm_num [him]
  · norm_num [him]

theorem calculate_confidence_score_bounds (payload : Payload) :
    0 ≤ calculate_confidence_score payload ∧ calculate_confidence_score payload ≤ 100 := by
  obtain ⟨hs0, hs6⟩ := keyFields_sum_bounds payload
  unfold calculate_confidence_score
  dsimp only
  rw [keyFields_length_q]
  by_cases him : (pget payload "image_downloaded").truthy = true
  · rw [if_pos him, if_pos him, if_pos (show (0:ℚ) < 6 + 1/2 by norm_num)]
    constructor
    · apply mul_nonneg _ (by norm_num)
      apply div_nonneg (by linarith) (by norm_num)
    · have hle : ((keyFields.map (fieldPoints payload)).sum + 1/2) / ((6 : ℚ) + 1/2) ≤ 1 := by
        rw [div_le_one (by norm_num)]
        linarith
      have := mul_le_mul_of_nonneg_right hle (show (0:ℚ) ≤ 100 by norm_num)
      simpa using this
  · rw [if_neg him, if_neg him, if_pos (show (0:ℚ) < 6 by norm_num)]
    constructor
    · apply mul_nonneg _ (by norm_num)
      apply div_nonneg (by linarith) (by norm_num)
    · have hle : (keyFields.map (fieldPoints payload)).sum / (6 : ℚ) ≤ 1 := by
        rw [div_le_one (by norm_num)]
        linarith
      have := mul_le_mul_of_nonneg_right hle (show (0:ℚ) ≤ 100 by norm_num)
      simpa using this

theorem confidence_all_fields (payload : Payload)
    (h6 : ∀ f ∈ keyFields, specFieldPoint payload f = 1)
    (him : (pget payload "image_downloaded").truthy = false) :
    calculate_confidence_score payload = 100 := by
  rw [calculate_confidence_score_eq]
  unfold confidenceSpec
  dsimp only
  have h1 := h6 "title" (by simp [keyFields])
  have h2 := h6 "sku" (by simp [keyFields])
  have h3 := h6 "brand" (by simp [keyFields])
  have h4 := h6 "supplier" (by simp [keyFields])
  have h5 := h6 "description" (by simp [keyFields])
  have h7 := h6 "key_attributes" (by simp [keyFields])
  rw [him]
  simp only [keyFields, List.map_cons, List.map_nil, List.sum_cons, List.sum_nil,
    h1, h2, h3, h4, h5, h7]
  norm_num

theorem confidence_no_fields (payload : Payload)
    (h0 : ∀ f ∈ keyFields, specFieldPoint payload f = 0)
    (him : (pget payload "image_downloaded").truthy = false) :
    calculate_confidence_score payload = 0 := by
  rw [calculate_confidence_score_eq]
  unfold confidenceSpec
  dsimp only
  have h1 := h0 "title" (by simp [keyFields])
  have h2 := h0 "sku" (by simp [keyFields])
  have h3 := h0 "brand" (by simp [keyFields])
  have h4 := h0 "supplier" (by simp [keyFields])
  have h5 := h0 "description" (by simp [keyFields])
  have h7 := h0 "key_attributes" (by simp [keyFields])
  rw [him]
  simp only [keyFields, List.map_cons, List.map_nil, List.sum_cons, List.sum_nil,
    h1, h2, h3, h4, h5, h7]
  norm_num

theorem validate_of_failure (r : ExtractionResult) (hs : r.success = false) :
    validate_extraction_result r = { r with validation_status := some "failed" } := by
  unfold validate_extraction_result
  rw [hs]
  rfl

theorem validate_status_issues (r : ExtractionResult) (hs : r.success = true)
    (hne : validationIssues r ≠ []) :
    (validate_extraction_result r).validation_status = some "issues" ∧
    (validate_extraction_result r).error_message
      = some (String.intercalate "; " ((validationIssues r).map ValidationIssue.render)) := by
  have hni : (validationIssues r).isEmpty = false := by
    cases hv : validationIssues r with
    | nil => exact absurd hv hne
    | cons a t => rfl
  unfold validate_extraction_result
  rw [hs]
  simp [hni]

theorem validate_status_of_success (r : ExtractionResult) (hs : r.success = true) :
    (validate_extraction_result r).validation_status = some "issues" ∨
    (validate_extraction_result r).validation_status = some "validated" := by
  unfold validate_extraction_result
  rw [hs]
  by_cases hni : (validationIssues r).isEmpty = true
  · right; simp [hni]
  · left
    have hni' : validationIssues r ≠ [] := by simpa [List.isEmpty_iff] using hni
    simp [hni']

theorem mem_validationIssues_noResultData (r : ExtractionResult)
    (h : optPayloadTruthy r.result = false) :
    ValidationIssue.noResultData ∈ validationIssues r := by
  simp [validationIssues, h]

theorem mem_validationIssues_missing_title (r : ExtractionResult) (p : Payload)
    (hr : r.result = some p) (hp : p.isEmpty = false)
    (ht : (pget p "title").truthy = false) :
    ValidationIssue.missingRequiredField "title" ∈ validationIssues r := by
  simp [validationIssues, hr, hp, ht]

theorem mem_validationIssues_lowConfidence (r : ExtractionResult) (c : ℚ)
    (hc : r.confidence_score = some c) (h0 : c ≠ 0) (h50 : c < 50) :
    ValidationIssue.lowConfidenceScore c ∈ validationIssues r := by
  simp [validationIssues, hc, h0, h50]


theorem run_workflow_eq (env : Env) (s0 : WorkflowState) :
    run_workflow env s0
      = save_summary (run_extraction_loop env
          ((setupPhase env s0).products.length + 1) (setupPhase env s0)) := rfl

theorem setupPhase_fields (env : Env) (u : Bool) (bucket folder : String)
    (delay B cfg : Nat) :
    (setupPhase env (mkInitialState u bucket folder delay B cfg)).products
        = loadedProducts env ∧
    (setupPhase env (mkInitialState u bucket folder delay B cfg)).current_product_index = 0 ∧
    (setupPhase env (mkInitialState u bucket folder delay B cfg)).max_parallel_extractions
        = B ∧
    (setupPhase env (mkInitialState u bucket folder delay B cfg)).metrics.successful_extractions
        = 0 ∧
    (setupPhase env (mkInitialState u bucket folder delay B cfg)).metrics.failed_extractions
        = 0 ∧
    (setupPhase env (mkInitialState u bucket folder delay B cfg)).metrics.total_products
        = (loadedProducts env).length ∧
    (setupPhase env (mkInitialState u bucket folder delay B cfg)).retry_queue = [] ∧
    (setupPhase env (mkInitialState u bucket folder delay B cfg)).retry_enqueued = 0 ∧
    (setupPhase env (mkInitialState u bucket folder delay B cfg)).attempts = [] ∧
    (setupPhase env (mkInitialState u bucket folder delay B cfg)).batch_log = [] ∧
    (setupPhase env (mkInitialState u bucket folder delay B cfg)).extraction_results = [] := by
  unfold setupPhase start_extraction create_folders load_product_list
    initialize_workflow mkInitialState
  dsimp only
  repeat' split
  all_goals simp_all [List.isEmpty_iff]

theorem extract_single_product_fail (ex : String → Nat → ExtractOutcome)
    (p : ProductData) (folder : String)
    (he : (ex p.name p.retry_count).exception = none)
    (hr : (ex p.name p.retry_count).result = none) :
    extract_single_product ex p folder
      = ({ product_name := p.name, success := false,
           error_message := some "No details found",
           extraction_time := some (ex p.name p.retry_count).elapsed,
           retry_count := p.retry_count }, []) := by
  unfold extract_single_product
  dsimp only
  rw [he, hr]

theorem validationIssues_ne_nil_of_missing_title (r : ExtractionResult)
    (ht : titleMissing r = true) : validationIssues r ≠ [] := by
  rcases hr : r.result with _ | p
  · exact List.ne_nil_of_mem
      (mem_validationIssues_noResultData r (by simp [optPayloadTruthy, hr]))
  · by_cases hp : p.isEmpty = true
    · exact List.ne_nil_of_mem
        (mem_validationIssues_noResultData r (by simp [optPayloadTruthy, hr, hp]))
    · have hp' : p.isEmpty = false := by simpa using hp
      have ht' : (pget p "title").truthy = false := by
        unfold titleMissing at ht
        rw [hr] at ht
        simpa using ht
      exact List.ne_nil_of_mem (mem_validationIssues_missing_title r p hr hp' ht')


theorem run_extraction_loop_results_bound (env : Env) :
    ∀ (fuel : Nat) (s : WorkflowState),
      1 ≤ s.max_parallel_extractions →
      s.products.length - s.current_product_index < fuel →
      (∀ p ∈ s.products, p.retry_count = 0) →
      (∀ q ∈ s.retry_queue, q.retry_count ≤ 1) →
      (∀ r ∈ s.extraction_results, r.retry_count ≤ 1) →
      ∀ r ∈ (run_extraction_loop env fuel s).extraction_results, r.retry_count ≤ 1 := by
  intro fuel
  induction fuel with
  | zero => intro s _ hf; exact absurd hf (Nat.not_lt_zero _)
  | succ fuel ih =>
      intro s hB hf hprod hqueue hres
      rw [run_extraction_loop_succ]
      rcases le_or_lt s.products.length s.current_product_index with hge | hlt
      · have hepp := extract_products_parallel_ge env s hge
        by_cases hq : s.retry_queue = []
        · have hroute : should_continue_extraction (extract_products_parallel env s)
              = Route.validate := by
            rw [hepp]; exact should_continue_validate _ hge hq
          rw [hroute]
          dsimp only
          apply start_validation_results_bound
          rw [hepp]
          exact hres
        · have hroute : should_continue_extraction (extract_products_parallel env s)
              = Route.retry := by
            rw [hepp]; exact should_continue_retry _ hge hq
          rw [hroute]
          dsimp only
          apply start_validation_results_bound
          apply process_retry_queue_results_bound
          · rw [hepp]; exact hres
          · rw [hepp]; exact hqueue
      · obtain ⟨hP, hM, hD, hI, hL, hRp, hT, hAt, hA⟩ :=
          extract_products_parallel_lt env s hlt
        have hres' : ∀ r ∈ (extract_products_parallel env s).extraction_results,
            r.retry_count ≤ 1 :=
          extract_products_parallel_results_bound env s hres
            (fun p hp => by rw [hprod p hp]; omega)
        have hqueue' : ∀ q ∈ (extract_products_parallel env s).retry_queue,
            q.retry_count ≤ 1 := by
          intro q hq
          rcases extract_products_parallel_queue env s q hq with h | ⟨p, hp, rfl⟩
          · exact hqueue q h
          · simp only
            rw [hprod p hp]
        rcases le_or_lt s.products.length
            (extract_products_parallel env s).current_product_index with hge' | hlt'
        · have hge'' : (extract_products_parallel env s).products.length
              ≤ (extract_products_parallel env s).current_product_index := by
            rw [hP]; exact hge'
          by_cases hq : (extract_products_parallel env s).retry_queue = []
          · have hroute : should_continue_extraction (extract_products_parallel env s)
                = Route.validate := should_continue_validate _ hge'' hq
            rw [hroute]
            dsimp only
            exact start_validation_results_bound _ hres'
          · have hroute : should_continue_extraction (extract_products_parallel env s)
                = Route.retry := should_continue_retry _ hge'' hq
            rw [hroute]
            dsimp only
            exact start_validation_results_bound _
              (process_retry_queue_results_bound env _ hres' hqueue')
        · have hlt'' : (extract_products_parallel env s).current_product_index
              < (extract_products_parallel env s).products.length := by
            rw [hP]; exact hlt'
          have hroute : should_continue_extraction (extract_products_parallel env s)
              = Route.cont := should_continue_cont _ hlt''
          rw [hroute]
          dsimp only
          have hB' : 1 ≤ (extract_products_parallel env s).max_parallel_extractions := by
            rw [hM]; exact hB
          have hbs1 : 1 ≤ min s.max_parallel_extractions
              (s.products.length - s.current_product_index) := le_min hB (by omega)
          have hf' : (extract_products_parallel env s).products.length
              - (extract_products_parallel env s).current_product_index < fuel := by
            rw [hP, hI]; rw [hI] at hlt'; omega
          refine ih (extract_products_parallel env s) hB' hf' ?_ hqueue' hres'
          rw [hP]
          exact hprod

theorem run_extraction_loop_attempts (env : Env) :
    ∀ (fuel : Nat) (s : WorkflowState),
      1 ≤ s.max_parallel_extractions →
      s.products.length - s.current_product_index < fuel →
      ∃ rest, (run_extraction_loop env fuel s).attempts
        = s.attempts ++ (s.products.drop s.current_product_index).map attemptKey ++ rest := by
  intro fuel
  induction fuel with
  | zero => intro s _ hf; exact absurd hf (Nat.not_lt_zero _)
  | succ fuel ih =>
      intro s hB hf
      rw [run_extraction_loop_succ]
      rcases le_or_lt s.products.length s.current_product_index with hge | hlt
      · have hepp := extract_products_parallel_ge env s hge
        have hdrop : s.products.drop s.current_product_index = [] :=
          List.drop_eq_nil_of_le hge
        by_cases hq : s.retry_queue = []
        · have hroute : should_continue_extraction (extract_products_parallel env s)
              = Route.validate := by
            rw [hepp]; exact should_continue_validate _ hge hq
          rw [hroute]
          dsimp only
          refine ⟨[], ?_⟩
          obtain ⟨_, hat, _, _, _, _, _⟩ :=
            start_validation_const (extract_products_parallel env s)
          rw [hat, hepp, hdrop]
          simp
        · have hroute : should_continue_extraction (extract_products_parallel env s)
              = Route.retry := by
            rw [hepp]; exact should_continue_retry _ hge hq
          rw [hroute]
          dsimp only
          refine ⟨s.retry_queue.map attemptKey, ?_⟩
          obtain ⟨_, hat, _, _, _, _, _⟩ :=
            start_validation_const (process_retry_queue env (extract_products_parallel env s))
          rw [hat, process_retry_queue_attempts, hepp, hdrop]
          simp
      · obtain ⟨hP, hM, hD, hI, hL, hRp, hT, hAt, hA⟩ :=
          extract_products_parallel_lt env s hlt
        have hbs1 : 1 ≤ min s.max_parallel_extractions
            (s.products.length - s.current_product_index) := le_min hB (by omega)
        have hbs2 : min s.max_parallel_extractions
            (s.products.length - s.current_product_index)
              ≤ s.products.length - s.current_product_index := min_le_right _ _
        rcases le_or_lt s.products.length
            (extract_products_parallel env s).current_product_index with hge' | hlt'
        · have hge'' : (extract_products_parallel env s).products.length
              ≤ (extract_products_parallel env s).current_product_index := by
            rw [hP]; exact hge'
          have hbsΔ : min s.max_parallel_extractions
              (s.products.length - s.current_product_index)
                = s.products.length - s.current_product_index := by
            rw [hI] at hge'; omega
          have htake : (s.products.drop s.current_product_index).take
              (min s.max_parallel_extractions
                (s.products.length - s.current_product_index))
              = s.products.drop s.current_product_index := by
            apply List.take_of_length_le
            rw [List.length_drop, hbsΔ]
          by_cases hq : (extract_products_parallel env s).retry_queue = []
          · have hroute : should_continue_extraction (extract_products_parallel env s)
                = Route.validate := should_continue_validate _ hge'' hq
            rw [hroute]
            dsimp only
            refine ⟨[], ?_⟩
            obtain ⟨_, hat, _, _, _, _, _⟩ :=
              start_validation_const (extract_products_parallel env s)
            rw [hat, hAt, htake]
            simp
          · have hroute : should_continue_extraction (extract_products_parallel env s)
                = Route.retry := should_continue_retry _ hge'' hq
            rw [hroute]
            dsimp only
            refine ⟨(extract_products_parallel env s).retry_queue.map attemptKey, ?_⟩
            obtain ⟨_, hat, _, _, _, _, _⟩ :=
              start_validation_const (process_retry_queue env
                (extract_products_parallel env s))
            rw [hat, process_retry_queue_attempts, hAt, htake]
        · have hlt'' : (extract_products_parallel env s).current_product_index
              < (extract_products_parallel env s).products.length := by
            rw [hP]; exact hlt'
          have hroute : should_continue_extraction (extract_products_parallel env s)
              = Route.cont := should_continue_cont _ hlt''
          rw [hroute]
          dsimp only
          have hB' : 1 ≤ (extract_products_parallel env s).max_parallel_extractions := by
            rw [hM]; exact hB
          have hf' : (extract_products_parallel env s).products.length
              - (extract_products_parallel env s).current_product_index < fuel := by
            rw [hP, hI]; rw [hI] at hlt'; omega
          obtain ⟨rest, hrest⟩ := ih (extract_products_parallel env s) hB' hf'
          refine ⟨rest, ?_⟩
          rw [hrest, hAt, hP, hI]
          have hdd : s.products.drop (s.current_product_index
              + min s.max_parallel_extractions
                  (s.products.length - s.current_product_index))
            = (s.products.drop s.current_product_index).drop
                (min s.max_parallel_extractions
                  (s.products.length - s.current_product_index)) :=
            (List.drop_drop _ _ _).symm
          rw [hdd]
          have hsplit : (s.products.drop s.current_product_index).map attemptKey
              = ((s.products.drop s.current_product_index).take
                    (min s.max_parallel_extractions
                      (s.products.length - s.current_product_index))).map attemptKey
                ++ ((s.products.drop s.current_product_index).drop
                    (min s.max_parallel_extractions
                      (s.products.length - s.current_product_index))).map attemptKey := by
            rw [← List.map_append, List.take_append_drop]
          rw [hsplit]
          simp

end AdvancedExtractor

namespace AdvancedExtractor


/-- C1 (amended): every run reaches the validation_completed terminal state, and the final metrics satisfy successful + failed = total_products + retry_enqueued. The claimed invariant successful + failed = total_products fails: extract_products_parallel counts a product again when its queued retry is processed in the same pass. -/
theorem C1_run_counts (env : Env) (u : Bool) (bucket folder : String)
    (delay B cfg : Nat) (hB : 1 ≤ B) :
    (run_workflow env (mkInitialState u bucket folder delay B cfg)).current_state
        = ProductState.validation_completed ∧
    (run_workflow env (mkInitialState u bucket folder delay B cfg)).metrics.successful_extractions
        + (run_workflow env (mkInitialState u bucket folder delay B cfg)).metrics.failed_extractions
      = (run_workflow env (mkInitialState u bucket folder delay B cfg)).metrics.total_products
        + (run_workflow env (mkInitialState u bucket folder delay B cfg)).retry_enqueued := by
  rw [run_workflow_eq]
  obtain ⟨hP, hI, hM, hS, hF, hT, hQ, hRE, hAt, hBL, hRes⟩ :=
    setupPhase_fields env u bucket folder delay B cfg
  set S4 := setupPhase env (mkInitialState u bucket folder delay B cfg) with hS4
  have hB'' : 1 ≤ S4.max_parallel_extractions := by rw [hM]; exact hB
  have hfu : S4.products.length - S4.current_product_index < S4.products.length + 1 := by
    omega
  have hinv : S4.retry_enqueued = S4.retry_queue.length := by rw [hRE, hQ]; rfl
  have hcounts := run_extraction_loop_counts env (S4.products.length + 1) S4 hB'' hfu hinv
  obtain ⟨hTf, hCS, _⟩ := run_extraction_loop_final env (S4.products.length + 1) S4 hB'' hfu
  obtain ⟨sS, sF, sT, _, _, _, sRE, _, sCS2, _⟩ :=
    save_summary_const (run_extraction_loop env (S4.products.length + 1) S4)
  refine ⟨?_, ?_⟩
  · rw [sCS2, hCS]
  · rw [sS, sF, sT, sRE, hcounts, hTf, hT, hS, hF, hI, hP]
    omega

/-- C7: the batch log of a run equals chunkSizes B N over the N loaded products; there are exactly ceil(N over B) batches whose sizes sum to N; with 7 products, batch size 3 and no retries the sizes are [3, 3, 1] and no retry pass runs. -/
theorem C7_batch_sizes (env : Env) (u : Bool) (bucket folder : String)
    (delay B cfg : Nat) (hB : 1 ≤ B) :
    (run_workflow env (mkInitialState u bucket folder delay B cfg)).batch_log
        = chunkSizes B (loadedProducts env).length ∧
    (∀ N, (chunkSizes B N).length = (N + B - 1) / B) ∧
    (∀ N, (chunkSizes B N).sum = N) ∧
    (run_workflow sevenOkEnv localState3).batch_log = [3, 3, 1] ∧
    (run_workflow sevenOkEnv localState3).retry_passes = 0 ∧
    (run_workflow sevenOkEnv localState3).retry_queue.isEmpty = true := by
  refine ⟨?_, chunkSizes_length B hB, chunkSizes_sum B hB, by decide, by decide, by decide⟩
  rw [run_workflow_eq]
  obtain ⟨hP, hI, hM, hS, hF, hT, hQ, hRE, hAt, hBL, hRes⟩ :=
    setupPhase_fields env u bucket folder delay B cfg
  set S4 := setupPhase env (mkInitialState u bucket folder delay B cfg) with hS4
  have hB'' : 1 ≤ S4.max_parallel_extractions := by rw [hM]; exact hB
  have hfu : S4.products.length - S4.current_product_index < S4.products.length + 1 := by
    omega
  obtain ⟨_, _, _, _, sBL, _, _, _, _, _⟩ :=
    save_summary_const (run_extraction_loop env (S4.products.length + 1) S4)
  rw [sBL, run_extraction_loop_batch_log env (S4.products.length + 1) S4 hB'' hfu,
    hBL, hM, hI, hP]
  simp

/-- C8 (amended): every loaded product carries the dataclass defaults retry_count = 0 and max_retries = 3 (the loaders never set them, and the config max_retries key is never read), and every final result has retry_count at most 1, hence at most the per-product max_retries 3. The claimed bound by the configured retry budget fails. -/
theorem C8_result_retry_bound (env : Env) (u : Bool) (bucket folder : String)
    (delay B cfg : Nat) (hB : 1 ≤ B) :
    (∀ p ∈ loadedProducts env, p.retry_count = 0 ∧ p.max_retries = 3) ∧
    ∀ r ∈ (run_workflow env (mkInitialState u bucket folder delay B cfg)).extraction_results,
        r.retry_count ≤ 1 ∧ r.retry_count ≤ 3 := by
  refine ⟨loadedProducts_fields env, ?_⟩
  intro r hr
  rw [run_workflow_eq] at hr
  obtain ⟨hP, hI, hM, hS, hF, hT, hQ, hRE, hAt, hBL, hRes⟩ :=
    setupPhase_fields env u bucket folder delay B cfg
  set S4 := setupPhase env (mkInitialState u bucket folder delay B cfg) with hS4
  have hB'' : 1 ≤ S4.max_parallel_extractions := by rw [hM]; exact hB
  have hfu : S4.products.length - S4.current_product_index < S4.products.length + 1 := by
    omega
  obtain ⟨_, _, _, _, _, _, _, _, _, sRes⟩ :=
    save_summary_const (run_extraction_loop env (S4.products.length + 1) S4)
  rw [sRes] at hr
  have hprod : ∀ p ∈ S4.products, p.retry_count = 0 := by
    rw [hP]
    intro p hp
    exact (loadedProducts_fields env p hp).1
  have hq' : ∀ q ∈ S4.retry_queue, q.retry_count ≤ 1 := by
    rw [hQ]
    intro q hq
    exact absurd hq (List.not_mem_nil q)
  have hres' : ∀ r' ∈ S4.extraction_results, r'.retry_count ≤ 1 := by
    rw [hRes]
    intro r' hr'
    exact absurd hr' (List.not_mem_nil r')
  have hb := run_extraction_loop_results_bound env (S4.products.length + 1) S4 hB'' hfu
    hprod hq' hres' r hr
  exact ⟨hb, hb.trans (by omega)⟩

theorem loadedProducts_sorted (env : Env) : List.Sorted nameLe (loadedProducts env) := by
  unfold loadedProducts
  dsimp only
  split
  · exact extract_from_iprocure_sorted _
  · rcases henv : env.existing_file with _ | dd
    · dsimp only
      exact List.sorted_nil
    · dsimp only
      exact load_existing_products_sorted dd

/-- C10: both loaders return their products sorted in ascending name order (as a permutation of the converted raw input), the loaded list of any run is sorted, and the first N attempt records of a run list exactly those N products in that sorted order. -/
theorem C10_loading_sorted (d raw : List JValue) (env : Env) (u : Bool)
    (bucket folder : String) (delay B cfg : Nat) (hB : 1 ≤ B) :
    List.Sorted nameLe (load_existing_products d) ∧
    (load_existing_products d).Perm (convertRawProducts d) ∧
    List.Sorted nameLe (extract_from_iprocure raw) ∧
    (extract_from_iprocure raw).Perm (if raw.isEmpty then [] else convertRawProducts raw) ∧
    List.Sorted nameLe (loadedProducts env) ∧
    (run_workflow env (mkInitialState u bucket folder delay B cfg)).attempts.take
        (loadedProducts env).length
      = (loadedProducts env).map attemptKey := by
  refine ⟨load_existing_products_sorted d, load_existing_products_perm d,
    extract_from_iprocure_sorted raw, extract_from_iprocure_perm raw,
    loadedProducts_sorted env, ?_⟩
  rw [run_workflow_eq]
  obtain ⟨hP, hI, hM, hS, hF, hT, hQ, hRE, hAt, hBL, hRes⟩ :=
    setupPhase_fields env u bucket folder delay B cfg
  set S4 := setupPhase env (mkInitialState u bucket folder delay B cfg) with hS4
  have hB'' : 1 ≤ S4.max_parallel_extractions := by rw [hM]; exact hB
  have hfu : S4.products.length - S4.current_product_index < S4.products.length + 1 := by
    omega
  obtain ⟨_, _, _, sAt, _, _, _, _, _, _⟩ :=
    save_summary_const (run_extraction_loop env (S4.products.length + 1) S4)
  obtain ⟨rest, hrest⟩ :=
    run_extraction_loop_attempts env (S4.products.length + 1) S4 hB'' hfu
  rw [sAt, hrest, hAt, hP, hI]
  simp only [List.drop_zero, List.nil_append]
  rw [← List.length_map (loadedProducts env) attemptKey]
  exact List.take_left _ _

theorem titleOnly_confidence : calculate_confidence_score titleOnlyPayload = 50 / 3 := by
  have h : keyFields.map (fieldPoints titleOnlyPayload) = [1, 0, 0, 0, 0, 0] := rfl
  have himg : (pget titleOnlyPayload "image_downloaded").truthy = false := rfl
  unfold calculate_confidence_score
  rw [h, himg]
  norm_num [keyFields]

theorem zeroPayload_confidence : calculate_confidence_score zeroScorePayload = 0 := by
  have h : keyFields.map (fieldPoints zeroScorePayload) = [0, 0, 0, 0, 0, 0] := rfl
  have himg : (pget zeroScorePayload "image_downloaded").truthy = false := rfl
  unfold calculate_confidence_score
  rw [h, himg]
  norm_num [keyFields]

/-- C2 (amended): a product whose extraction fails at retry_count 0 and again at retry_count 1 is attempted exactly twice in total, and its final result has retry_count = 1, for any max_retries of at least 1: process_retry_queue makes a single pass and a failing retry is never re-enqueued, so the claimed 1 + max_retries attempts never happen. -/
theorem C2_single_retry (env : Env) (p : ProductData) (B : Nat)
    (hB : 1 ≤ B) (hrc : p.retry_count = 0) (hmr : 1 ≤ p.max_retries)
    (he0 : (env.extract p.name 0).exception = none)
    (hr0 : (env.extract p.name 0).result = none)
    (he1 : (env.extract p.name 1).exception = none)
    (hr1 : (env.extract p.name 1).result = none) :
    (runExtractionPhase env (extractionEntryState p B)).attempts
        = [(p.name, 0), (p.name, 1)] ∧
    (runExtractionPhase env (extractionEntryState p B)).extraction_results.map
        ExtractionResult.retry_count = [1] ∧
    (runExtractionPhase env (extractionEntryState p B)).retry_queue = [] := by
  have hlt : p.retry_count < p.max_retries := by omega
  have hmin : min B 1 = 1 := Nat.min_eq_right hB
  have hf0 := extract_single_product_fail env.extract p "data"
    (by rw [hrc]; exact he0) (by rw [hrc]; exact hr0)
  have hf1 := extract_single_product_fail env.extract
    { p with retry_count := 1 } "data" he1 hr1
  have hmr0 : 0 < p.max_retries := by omega
  refine ⟨?_, ?_, ?_⟩ <;>
    simp [runExtractionPhase, extractionEntryState, mkInitialState, run_extraction_loop,
      extract_products_parallel, hmin, process_batch_product, hf0, hf1, hlt, hmr0,
      should_continue_extraction, process_retry_queue, process_retry_product,
      start_validation, replaceResult, validate_extraction_result, attemptKey, hrc]

/-- C2 counterexample: with max_retries = 2 the product is attempted 2 times, not the claimed 3, and the final retry_count is 1, not 2; the retry queue ends empty without re-enqueueing. -/
theorem C2_counterexample :
    twoRetryProduct.max_retries = 2 ∧
    (runExtractionPhase alwaysFailEnv (extractionEntryState twoRetryProduct 1)).attempts
      = [("P", 0), ("P", 1)] ∧
    (runExtractionPhase alwaysFailEnv (extractionEntryState twoRetryProduct 1)).attempts.length
      ≠ 3 ∧
    (runExtractionPhase alwaysFailEnv
        (extractionEntryState twoRetryProduct 1)).extraction_results.map
        ExtractionResult.retry_count = [1] ∧
    (runExtractionPhase alwaysFailEnv (extractionEntryState twoRetryProduct 1)).retry_queue.isEmpty
      = true :=
  ⟨by decide, by decide, by decide, by decide, by decide⟩

/-- C2 witness: the amended retry behaviour instantiated on the always-failing oracle with max_retries = 2. -/
theorem C2_single_retry_witness :
    (runExtractionPhase alwaysFailEnv (extractionEntryState twoRetryProduct 1)).attempts
        = [("P", 0), ("P", 1)] ∧
    (runExtractionPhase alwaysFailEnv
        (extractionEntryState twoRetryProduct 1)).extraction_results.map
        ExtractionResult.retry_count = [1] ∧
    (runExtractionPhase alwaysFailEnv (extractionEntryState twoRetryProduct 1)).retry_queue
      = [] :=
  C2_single_retry alwaysFailEnv twoRetryProduct 1 (by decide) (by decide) (by decide)
    rfl rfl rfl rfl

/-- C3: the confidence score equals the spec formula (points over the six key fields divided by total weight, times 100, with the 0.5 image bonus on both sides and 0 when the weight is 0); it always lies in [0, 100], is exactly 100 when all six key fields are present with no image, and 0 when no key field is present. -/
theorem C3_confidence_score (payload : Payload) :
    calculate_confidence_score payload = confidenceSpec payload ∧
    0 ≤ calculate_confidence_score payload ∧
    calculate_confidence_score payload ≤ 100 ∧
    ((∀ f ∈ keyFields, specFieldPoint payload f = 1) →
      (pget payload "image_downloaded").truthy = false →
      calculate_confidence_score payload = 100) ∧
    ((∀ f ∈ keyFields, specFieldPoint payload f = 0) →
      (pget payload "image_downloaded").truthy = false →
      calculate_confidence_score payload = 0) := by
  obtain ⟨h0, h100⟩ := calculate_confidence_score_bounds payload
  exact ⟨calculate_confidence_score_eq payload, h0, h100,
    fun h6 him => confidence_all_fields payload h6 him,
    fun hz him => confidence_no_fields payload hz him⟩

/-- C3 witness: concrete payloads scoring 100 (all fields), 0 (no fields), and the spec-formula equality and bounds on the title-only payload. -/
theorem C3_confidence_score_witness :
    calculate_confidence_score allFieldsPayload = 100 ∧
    calculate_confidence_score zeroScorePayload = 0 ∧
    calculate_confidence_score titleOnlyPayload = confidenceSpec titleOnlyPayload ∧
    0 ≤ calculate_confidence_score titleOnlyPayload ∧
    calculate_confidence_score titleOnlyPayload ≤ 100 := by
  obtain ⟨he, h0, h100, _, _⟩ := C3_confidence_score titleOnlyPayload
  obtain ⟨_, _, _, hallA, _⟩ := C3_confidence_score allFieldsPayload
  obtain ⟨_, _, _, _, hnoneZ⟩ := C3_confidence_score zeroScorePayload
  exact ⟨hallA (by decide) (by decide), hnoneZ (by decide) (by decide), he, h0, h100⟩

/-- C4: validation returns status failed iff success is false, and a successful result whose payload lacks the title field gets status issues with the accumulated issue message joined by semicolons (never validated). -/
theorem C4_validation_status (r : ExtractionResult) :
    ((validate_extraction_result r).validation_status = some "failed" ↔ r.success = false) ∧
    (r.success = true → titleMissing r = true →
      (validate_extraction_result r).validation_status = some "issues" ∧
      (validate_extraction_result r).error_message
        = some (String.intercalate "; " ((validationIssues r).map ValidationIssue.render)) ∧
      validationIssues r ≠ []) := by
  constructor
  · constructor
    · intro h
      cases hs : r.success
      · rfl
      · rcases validate_status_of_success r hs with h' | h' <;> rw [h'] at h
        · exact absurd h (by decide)
        · exact absurd h (by decide)
    · intro hs
      rw [validate_of_failure r hs]
  · intro hs ht
    have hne := validationIssues_ne_nil_of_missing_title r ht
    obtain ⟨h1, h2⟩ := validate_status_issues r hs hne
    exact ⟨h1, h2, hne⟩

/-- C4 witness: both parts instantiated on a successful result whose payload lacks a title. -/
theorem C4_validation_status_witness :
    ((validate_extraction_result zeroScoreResult).validation_status = some "failed" ↔
      zeroScoreResult.success = false) ∧
    (validate_extraction_result zeroScoreResult).validation_status = some "issues" ∧
    (validate_extraction_result zeroScoreResult).error_message
      = some (String.intercalate "; "
          ((validationIssues zeroScoreResult).map ValidationIssue.render)) ∧
    validationIssues zeroScoreResult ≠ [] := by
  obtain ⟨h1, h2⟩ := C4_validation_status zeroScoreResult
  exact ⟨h1, h2 (by decide) (by decide)⟩

/-- C5 (amended): a successful result whose confidence score is nonzero and strictly below 50 gets the low-confidence issue and status issues. A score of exactly 0 is exempt: the code guards with the truthiness of result.confidence_score, and 0 is falsy in Python. -/
theorem C5_low_confidence_issue (r : ExtractionResult) (c : ℚ)
    (hs : r.success = true) (hc : r.confidence_score = some c)
    (h0 : c ≠ 0) (h50 : c < 50) :
    ValidationIssue.lowConfidenceScore c ∈ validationIssues r ∧
    (validate_extraction_result r).validation_status = some "issues" := by
  have hmem := mem_validationIssues_lowConfidence r c hc h0 h50
  have hne := List.ne_nil_of_mem hmem
  exact ⟨hmem, (validate_status_issues r hs hne).1⟩

/-- C5 counterexample: a successful result with confidence score 0, which the claim says is flagged (for any such score, including 0), does not receive the low-confidence issue; its only recorded issue is the missing title. -/
theorem C5_counterexample :
    zeroScoreResult.success = true ∧
    zeroScoreResult.confidence_score = some 0 ∧
    ((0 : ℚ) < 50) ∧
    calculate_confidence_score zeroScorePayload = 0 ∧
    ValidationIssue.lowConfidenceScore 0 ∉ validationIssues zeroScoreResult ∧
    validationIssues zeroScoreResult = [ValidationIssue.missingRequiredField "title"] ∧
    (validate_extraction_result zeroScoreResult).validation_status = some "issues" :=
  ⟨rfl, rfl, by norm_num, zeroPayload_confidence, by decide, by decide, by decide⟩

/-- C5 witness: Scenario C, a payload holding only a title scores 50/3 (about 16.7), is flagged low-confidence, and validation returns status issues. -/
theorem C5_low_confidence_issue_witness :
    calculate_confidence_score titleOnlyPayload = 50 / 3 ∧
    scenarioCResult.confidence_score = some (calculate_confidence_score titleOnlyPayload) ∧
    ValidationIssue.lowConfidenceScore (calculate_confidence_score titleOnlyPayload)
        ∈ validationIssues scenarioCResult ∧
    (validate_extraction_result scenarioCResult).validation_status = some "issues" := by
  obtain ⟨hmem, hst⟩ := C5_low_confidence_issue scenarioCResult
    (calculate_confidence_score titleOnlyPayload) rfl rfl
    (by rw [titleOnly_confidence]; norm_num)
    (by rw [titleOnly_confidence]; norm_num)
  exact ⟨titleOnly_confidence, rfl, hmem, hst⟩

/-- C6: code bug. When product loading finds no products, load_product_list sets the state to failed, but every edge of the graph is unconditional, so the run continues through the remaining nodes, ends in validation_completed rather than failed, and still writes the summary artifact. The claim that setup failures terminate the run in Failed with no artifacts does not hold; no extraction is attempted, which is the only part that survives. -/
theorem C6_setup_failure_continues :
    (load_product_list noProductsEnv
        (initialize_workflow noProductsEnv localState3)).current_state
      = ProductState.failed ∧
    (run_workflow noProductsEnv localState3).current_state
      = ProductState.validation_completed ∧
    (run_workflow noProductsEnv localState3).current_state ≠ ProductState.failed ∧
    (run_workflow noProductsEnv localState3).error
      = some "No products found from iProcure!" ∧
    (run_workflow noProductsEnv localState3).attempts = [] ∧
    (run_workflow noProductsEnv localState3).artifacts
      = ["langgraph_advanced_summary.json"] :=
  ⟨by decide, by decide, by decide, by decide, by decide, by decide⟩

/-- C1 counterexample: one product that always fails, max_retries 3 (default). The run completes with total_products = 1 but successful (0) + failed (2) is not 1: the failed retry is counted a second time. -/
theorem C1_counterexample :
    (run_workflow alwaysFailEnv localState3).current_state
      = ProductState.validation_completed ∧
    (run_workflow alwaysFailEnv localState3).metrics.total_products = 1 ∧
    (run_workflow alwaysFailEnv localState3).metrics.successful_extractions = 0 ∧
    (run_workflow alwaysFailEnv localState3).metrics.failed_extractions = 2 ∧
    (run_workflow alwaysFailEnv localState3).metrics.successful_extractions
        + (run_workflow alwaysFailEnv localState3).metrics.failed_extractions
      ≠ (run_workflow alwaysFailEnv localState3).metrics.total_products :=
  ⟨by decide, by decide, by decide, by decide, by decide⟩

/-- C1 witness: the amended invariant instantiated on the always-failing one-product run. -/
theorem C1_run_counts_witness :
    (run_workflow alwaysFailEnv (mkInitialState false "" "data" 0 3 0)).current_state
        = ProductState.validation_completed ∧
    (run_workflow alwaysFailEnv (mkInitialState false "" "data" 0 3 0)).metrics.successful_extractions
        + (run_workflow alwaysFailEnv (mkInitialState false "" "data" 0 3 0)).metrics.failed_extractions
      = (run_workflow alwaysFailEnv (mkInitialState false "" "data" 0 3 0)).metrics.total_products
        + (run_workflow alwaysFailEnv (mkInitialState false "" "data" 0 3 0)).retry_enqueued :=
  C1_run_counts alwaysFailEnv false "" "data" 0 3 0 (by decide)

/-- C7 witness: the batching facts instantiated on the seven-product all-success run with batch size 3. -/
theorem C7_batch_sizes_witness :
    (run_workflow sevenOkEnv (mkInitialState false "" "data" 0 3 0)).batch_log
        = chunkSizes 3 (loadedProducts sevenOkEnv).length ∧
    (∀ N, (chunkSizes 3 N).length = (N + 3 - 1) / 3) ∧
    (∀ N, (chunkSizes 3 N).sum = N) ∧
    (run_workflow sevenOkEnv localState3).batch_log = [3, 3, 1] ∧
    (run_workflow sevenOkEnv localState3).retry_passes = 0 ∧
    (run_workflow sevenOkEnv localState3).retry_queue.isEmpty = true :=
  C7_batch_sizes sevenOkEnv false "" "data" 0 3 0 (by decide)

/-- C8 counterexample: with the config key max_retries set to 0, a failing product still yields a final result with retry_count = 1, exceeding the configured budget: the code consults only the per-product default. -/
theorem C8_counterexample :
    localState3.config_max_retries = 0 ∧
    (run_workflow alwaysFailEnv localState3).extraction_results.map
        ExtractionResult.retry_count = [1] ∧
    ¬ (1 ≤ localState3.config_max_retries) :=
  ⟨by decide, by decide, by decide⟩

/-- C8 witness: the amended bound instantiated on the always-failing run. -/
theorem C8_result_retry_bound_witness :
    (∀ p ∈ loadedProducts alwaysFailEnv, p.retry_count = 0 ∧ p.max_retries = 3) ∧
    ∀ r ∈ (run_workflow alwaysFailEnv
        (mkInitialState false "" "data" 0 3 0)).extraction_results,
        r.retry_count ≤ 1 ∧ r.retry_count ≤ 3 :=
  C8_result_retry_bound alwaysFailEnv false "" "data" 0 3 0 (by decide)

/-- C9 (amended): every character of a sanitized name is alphanumeric, a space, a hyphen or an underscore, and folder paths are data_folder slash sanitized name; but spaces are NOT replaced by underscores: the code only filters characters and strips trailing whitespace, so A-space-B stays A-space-B. -/
theorem C9_sanitization (name : String) (c : Char) :
    (c ∈ (sanitizeFolderName name).data →
      (pyIsAlnum c || c == ' ' || c == '-' || c == '_') = true) ∧
    (∀ products data_folder, create_product_folders products data_folder
        = products.map (fun p => data_folder ++ "/" ++ sanitizeFolderName p.name)) ∧
    sanitizeFolderName "A B" = "A B" := by
  refine ⟨?_, fun _ _ => rfl, by decide⟩
  intro hc
  have h1 : c ∈ ((name.data.filter
      (fun c => pyIsAlnum c || c == ' ' || c == '-' || c == '_')).reverse.dropWhile
        pyIsSpaceChar).reverse := hc
  rw [List.mem_reverse] at h1
  have h2 : c ∈ (name.data.filter
      (fun c => pyIsAlnum c || c == ' ' || c == '-' || c == '_')).reverse :=
    (List.dropWhile_sublist _).subset h1
  rw [List.mem_reverse] at h2
  exact (List.mem_filter.1 h2).2

/-- C9 counterexample: the code sanitizer keeps the space in the name, while the sanitizer the spec describes (spaces to underscores) produces the underscore form; the created folder path keeps the space. -/
theorem C9_counterexample :
    sanitizeFolderName "A B" = "A B" ∧
    specSanitizeName "A B" = "A_B" ∧
    ("A B" : String) ≠ "A_B" ∧
    create_product_folders [{ name := "A B" }] "data" = ["data/A B"] :=
  ⟨by decide, by decide, by decide, by decide⟩

/-- C9 witness: the character guarantee, the path equation and the space-preservation fact instantiated on the two-word name. -/
theorem C9_sanitization_witness :
    ('A' ∈ (sanitizeFolderName "A B").data) ∧
    (pyIsAlnum 'A' || 'A' == ' ' || 'A' == '-' || 'A' == '_') = true ∧
    create_product_folders [{ name := "A B" }] "data"
      = ([{ name := "A B" }] : List ProductData).map
          (fun p => "data" ++ "/" ++ sanitizeFolderName p.name) ∧
    sanitizeFolderName "A B" = "A B" := by
  obtain ⟨h1, h2, h3⟩ := C9_sanitization "A B" 'A'
  exact ⟨by decide, h1 (by decide), h2 [{ name := "A B" }] "data", h3⟩

/-- C10 witness: the sorting and ordering facts instantiated on an unsorted two-element raw list and the seven-product run. -/
theorem C10_loading_sorted_witness :
    List.Sorted nameLe (load_existing_products [JValue.str "b", JValue.str "a"]) ∧
    (load_existing_products [JValue.str "b", JValue.str "a"]).Perm
      (convertRawProducts [JValue.str "b", JValue.str "a"]) ∧
    List.Sorted nameLe (extract_from_iprocure [JValue.str "b", JValue.str "a"]) ∧
    (extract_from_iprocure [JValue.str "b", JValue.str "a"]).Perm
      (if ([JValue.str "b", JValue.str "a"] : List JValue).isEmpty then []
       else convertRawProducts [JValue.str "b", JValue.str "a"]) ∧
    List.Sorted nameLe (loadedProducts sevenOkEnv) ∧
    (run_workflow sevenOkEnv (mkInitialState false "" "data" 0 3 0)).attempts.take
        (loadedProducts sevenOkEnv).length
      = (loadedProducts sevenOkEnv).map attemptKey :=
  C10_loading_sorted [JValue.str "b", JValue.str "a"] [JValue.str "b", JValue.str "a"]
    sevenOkEnv false "" "data" 0 3 0 (by decide)

end AdvancedExtractor
